import Mathlib

/-!
# Unified shard gateway (`goquarkchain/internal/qkcapi/unified_api.go`)

A shallow embedding of the routing, fan-out and hash-correlation logic of
`UnifiedShardAPI`, followed by theorems about it.

Conventions of the embedding

* `uint32` values are natural numbers; arithmetic that can wrap is written
  with an explicit `% 2 ^ 32`.
* A Go string is the list of its bytes (`len` and slicing are byte
  operations in Go). Method names and JSON object keys, which the code only
  ever compares with ASCII literals, are Lean strings.
* A Go result pair `(value, error)` is an `Except`: `.error e` is
  `(zero value, e)`, `.ok v` is `(v, nil)`. A nil map result is `none`.
* The cluster is reached through `jsonrpc.RPCClient.Call`; the client is an
  arbitrary state machine over a cluster state, and every call is recorded in
  a log so that the order of the probes can be stated.
-/

namespace UnifiedApi

set_option maxRecDepth 8000

/-! ## Machine integers, bytes, strings -/

/-- One byte. -/
abbrev Byte := Fin 256

/-- A Go string, as its bytes. -/
abbrev GoString := List Byte

/-- Go `error` values are represented by their message. -/
abbrev Error := String

/-- Subtraction on `uint32`, wrapping modulo `2 ^ 32`. -/
def u32sub (a b : Nat) : Nat := (a + 2 ^ 32 - b % 2 ^ 32) % 2 ^ 32

/-- Type `common.Address`: exactly 20 bytes. -/
structure Address where
  bytes : List Byte
  size : bytes.length = 20
  deriving DecidableEq

/-- Type `common.Hash`: exactly 32 bytes. -/
structure Hash where
  bytes : List Byte
  size : bytes.length = 32
  deriving DecidableEq

/-- The expression `addr[len(addr)-1]`. -/
def Address.lastByte (addr : Address) : Byte :=
  addr.bytes.getLastD 0

/-! ## JSON values and the RPC client -/

/-- A decoded JSON value, as `encoding/json` stores it in an `interface{}`.
The payload of a number is never inspected by the gateway. -/
inductive JSON where
  | null : JSON
  | bool (b : Bool) : JSON
  | num (n : Int) : JSON
  | str (s : GoString) : JSON
  | arr (xs : List JSON) : JSON
  | obj (kvs : List (String × JSON)) : JSON

/-- A Go `map[string]interface{}`; a key is bound to the first pair carrying it. -/
abbrev JObj := List (String × JSON)

/-- The expression `m[key]`: the bound value, `nil` (JSON null) when the key is missing. -/
def JObj.get (m : JObj) (key : String) : JSON :=
  match m.find? (fun kv => kv.1 == key) with
  | some kv => kv.2
  | none => JSON.null

/-- Whether `key` is bound in the map. -/
def JObj.has (m : JObj) (key : String) : Bool :=
  m.any (fun kv => kv.1 == key)

/-- The statement `delete(m, key)`. -/
def JObj.delete (m : JObj) (key : String) : JObj :=
  m.filter (fun kv => !(kv.1 == key))

/-- The statement `m[key] = v`. -/
def JObj.set (m : JObj) (key : String) (v : JSON) : JObj :=
  (key, v) :: m.delete key

/-- Type `jsonrpc.RPCResponse`; only `Result` is read by the gateway. -/
structure RPCResponse where
  Result : JSON

/-- One invocation `client.Call(method, params...)`. -/
structure RPCRequest where
  method : String
  params : List JSON

/-- Interface `jsonrpc.RPCClient`: a call answers from the current cluster state and
may change it. -/
structure RPCClient (σ : Type) where
  Call : σ → String → List JSON → Except Error RPCResponse × σ

/-- The cluster state together with the calls issued so far. -/
structure World (σ : Type) where
  cluster : σ
  log : List RPCRequest

/-- Issue one call: answer from the cluster, record the request. -/
def Call {σ : Type} (c : RPCClient σ) (w : World σ) (req : RPCRequest) :
    Except Error RPCResponse × World σ :=
  let r := c.Call w.cluster req.method req.params
  (r.1, { cluster := r.2, log := w.log ++ [req] })

/-- The world after issuing the given requests one after the other. -/
def afterCalls {σ : Type} (c : RPCClient σ) (w : World σ) (reqs : List RPCRequest) : World σ :=
  reqs.foldl (fun w r => (Call c w r).2) w

/-! ## The gateway -/

/-- Type `ShardInfo`. Both fields are `uint32`. -/
structure ShardInfo where
  FullShardID : Nat
  ChainID : Nat
  deriving DecidableEq

/-- Type `txHashInfo`. -/
structure txHashInfo where
  qkcHash : Hash
  fullShardID : Nat
  deriving DecidableEq

/-- A Go `map[uint32]ShardInfo`. -/
abbrev ShardMap := Nat → Option ShardInfo

/-- The statement `m[k] = s`. -/
def ShardMap.set (m : ShardMap) (k : Nat) (s : ShardInfo) : ShardMap :=
  fun i => if i = k then some s else m i

/-- The expression `m[k]` used as a value: the zero `ShardInfo` when `k` is missing. -/
def ShardMap.lookup (m : ShardMap) (k : Nat) : ShardInfo :=
  (m k).getD { FullShardID := 0, ChainID := 0 }

/-- Type `UnifiedShardAPI` (the mutex is not represented: operations are
run one at a time). -/
structure UnifiedShardAPI (σ : Type) where
  shardSize : Nat
  chainID : Nat
  shards : ShardMap
  client : RPCClient σ
  hashMap : Hash → Option txHashInfo

/-- First loop of `NewUnifiedShardAPI`: insert every descriptor under its masked id,
failing on the first id already present. -/
def NewUnifiedShardAPI.build (shardSize : Nat) : List ShardInfo → ShardMap → Except Error ShardMap
  | [], shardMap => .ok shardMap
  | s :: rest, shardMap =>
    let shardID := s.FullShardID &&& u32sub shardSize 1
    if (shardMap shardID).isSome then
      .error ("duplicate shard ID " ++ toString shardID)
    else
      NewUnifiedShardAPI.build shardSize rest (shardMap.set shardID s)

/-- Second loop of `NewUnifiedShardAPI`, over `i = 0, 1, ..., shardSize-1`: fail on
the first id that is not present. -/
def NewUnifiedShardAPI.verify (shardMap : ShardMap) : List Nat → Except Error Unit
  | [] => .ok ()
  | i :: rest =>
    if (shardMap i).isNone then
      .error ("missing shard ID " ++ toString i)
    else
      NewUnifiedShardAPI.verify shardMap rest

/-- Function `NewUnifiedShardAPI`. -/
def NewUnifiedShardAPI {σ : Type} (shardSize chainID : Nat) (shards : List ShardInfo)
    (client : RPCClient σ) : Except Error (UnifiedShardAPI σ) :=
  if shardSize = 0 ∨ (shardSize &&& u32sub shardSize 1) ≠ 0 then
    .error ("shardSize must be power of 2, got " ++ toString shardSize)
  else if shards.length % 2 ^ 32 ≠ shardSize then
    .error ("expected " ++ toString shardSize ++ " shards, got " ++ toString shards.length)
  else
    match NewUnifiedShardAPI.build shardSize shards (fun _ => none) with
    | .error e => .error e
    | .ok shardMap =>
      match NewUnifiedShardAPI.verify shardMap (List.range shardSize) with
      | .error e => .error e
      | .ok _ =>
        .ok { shardSize := shardSize, chainID := chainID, shards := shardMap,
              client := client, hashMap := fun _ => none }

/-- Method `deriveShardID`. -/
def deriveShardID {σ : Type} (u : UnifiedShardAPI σ) (addr : Address) : Nat :=
  let lastByte := addr.lastByte.val
  lastByte &&& u32sub u.shardSize 1

/-- Method `deriveFullShardKey`. -/
def deriveFullShardKey {σ : Type} (u : UnifiedShardAPI σ) (addr : Address) : Nat :=
  let shardID := deriveShardID u addr
  shardID

/-- Method `getFullShardIDForAddress`. -/
def getFullShardIDForAddress {σ : Type} (u : UnifiedShardAPI σ) (addr : Address) : Nat :=
  let shardID := deriveShardID u addr
  (u.shards.lookup shardID).FullShardID

/-- The id under which `NewUnifiedShardAPI` files a descriptor. -/
def normalizedIndex (shardSize : Nat) (s : ShardInfo) : Nat :=
  s.FullShardID &&& (shardSize - 1)

/-- A gateway as it exists at run time: built by `NewUnifiedShardAPI` from `uint32`
arguments, with whatever the hash map has accumulated since. -/
def UnifiedShardAPI.Constructed {σ : Type} (u : UnifiedShardAPI σ) : Prop :=
  ∃ (sz cid : Nat) (shards : List ShardInfo) (u0 : UnifiedShardAPI σ),
    sz < 2 ^ 32 ∧ NewUnifiedShardAPI sz cid shards u.client = .ok u0 ∧
    u = { u0 with hashMap := u.hashMap }

/-- The world in which the probe for shard `k` is issued when the probes for
`0, ..., k-1` have been issued before it, starting from `w`. -/
def probeWorld {σ : Type} (c : RPCClient σ) (req : Nat → RPCRequest) (w : World σ) (k : Nat) :
    World σ :=
  afterCalls c w ((List.range k).map req)

/-- The answer of the cluster to the probe for shard `k` in that world. -/
def probeAnswer {σ : Type} (c : RPCClient σ) (req : Nat → RPCRequest) (w : World σ) (k : Nat) :
    Except Error RPCResponse :=
  (Call c (probeWorld c req w k) (req k)).1

/-! ## Byte strings and hex text -/

/-- Conversion `byte(n)`: the low eight bits. -/
def byteOf (n : Nat) : Byte := ⟨n % 256, Nat.mod_lt n (by decide)⟩

/-- The lower-case hex digit of a nibble, as an ASCII byte. -/
def hexDigit (n : Nat) : Byte :=
  [48, 49, 50, 51, 52, 53, 54, 55, 56, 57, 97, 98, 99, 100, 101, 102].getD n 48

/-- Function `common.Bytes2Hex` of go-ethereum (`hex.EncodeToString`). -/
def Bytes2Hex : List Byte → GoString
  | [] => []
  | b :: rest => hexDigit (b.val / 16) :: hexDigit (b.val % 16) :: Bytes2Hex rest

/-- Function `common.ToHex` of go-ethereum: `0x` followed by the hex digits, and
`0x0` for the empty slice. -/
def ToHex (b : List Byte) : GoString :=
  let hex := Bytes2Hex b
  let hex := if hex.length = 0 then [48] else hex
  [48, 120] ++ hex

/-- The effect of `binary.BigEndian.PutUint32` on a fresh 4-byte slice. -/
def bigEndianUint32 (v : Nat) : List Byte :=
  [byteOf (v / 2 ^ 24), byteOf (v / 2 ^ 16), byteOf (v / 2 ^ 8), byteOf v]

/-- Modelled from the spec: `qCommon.Uint32ToBytes` is declared in
`goquarkchain/common`, outside the files under verification. A native block
identifier is the hash qualified by the shard id; the id is laid out as in
`getTxIDWithShard`, four bytes, most significant first. -/
def Uint32ToBytes (n : Nat) : List Byte :=
  bigEndianUint32 n

/-- Function `getTxIDWithShard`. -/
def getTxIDWithShard (hash : Hash) (fullShardID : Nat) : List Byte :=
  let fullShardIDBytes := bigEndianUint32 fullShardID
  let txID : List Byte := []
  let txID := txID ++ hash.bytes
  let txID := txID ++ fullShardIDBytes
  txID

/-! ## Transactions -/

/-- The fields of a decoded `ethTypes.Transaction` that the gateway reads. -/
structure EthTransaction where
  Nonce : Nat
  GasPrice : Int
  Gas : Nat
  To : Option Address
  Value : Int
  Data : List Byte
  V : Int
  R : Int
  S : Int
  deriving DecidableEq

/-- Modelled from the spec: `types.EvmTransaction` is declared in
`goquarkchain/core/types`, outside the files under verification. The native
transaction carries nonce, recipient-or-none, value, gas limit, gas price,
origin shard key, destination shard key, chain id, a version tag, call data,
two token identifiers, and the signature components. -/
structure EvmTransaction where
  Nonce : Nat
  To : Option Address
  Value : Int
  GasLimit : Nat
  GasPrice : Int
  FromFullShardKey : Nat
  ToFullShardKey : Nat
  NetworkId : Nat
  Version : Nat
  Data : List Byte
  GasTokenID : Nat
  TransferTokenID : Nat
  V : Int
  R : Int
  S : Int
  deriving DecidableEq

/-- Modelled from the spec: `types.NewEvmTransaction` stores its arguments in the
fields of a native transaction with a recipient; the signature is not yet set. -/
def NewEvmTransaction (nonce : Nat) (recipient : Address) (amount : Int) (gasLimit : Nat)
    (gasPrice : Int) (fromFullShardKey toFullShardKey networkId version : Nat)
    (data : List Byte) (gasTokenID transferTokenID : Nat) : EvmTransaction :=
  { Nonce := nonce, To := some recipient, Value := amount, GasLimit := gasLimit, GasPrice := gasPrice,
    FromFullShardKey := fromFullShardKey, ToFullShardKey := toFullShardKey,
    NetworkId := networkId, Version := version, Data := data,
    GasTokenID := gasTokenID, TransferTokenID := transferTokenID, V := 0, R := 0, S := 0 }

/-- Modelled from the spec: `types.NewEvmContractCreation` stores its arguments in
the fields of a native transaction without recipient. -/
def NewEvmContractCreation (nonce : Nat) (amount : Int) (gasLimit : Nat)
    (gasPrice : Int) (fromFullShardKey toFullShardKey networkId version : Nat)
    (data : List Byte) (gasTokenID transferTokenID : Nat) : EvmTransaction :=
  { Nonce := nonce, To := none, Value := amount, GasLimit := gasLimit, GasPrice := gasPrice,
    FromFullShardKey := fromFullShardKey, ToFullShardKey := toFullShardKey,
    NetworkId := networkId, Version := version, Data := data,
    GasTokenID := gasTokenID, TransferTokenID := transferTokenID, V := 0, R := 0, S := 0 }

/-- Modelled from the spec: `EvmTransaction.SetVRS` copies the three signature
components into the native transaction. -/
def EvmTransaction.SetVRS (evmTx : EvmTransaction) (v r s : Int) : EvmTransaction :=
  { evmTx with V := v, R := r, S := s }

/-- What the gateway uses from packages outside the files under verification.
Nothing is assumed about these; every theorem holds for all of them. -/
structure Externals where
  /-- Function `reWriteBlockResult` of package `qkcapi`. -/
  reWriteBlockResult : JObj → JObj
  /-- Constant `types.BloomByteLength`. -/
  BloomByteLength : Nat
  /-- Function `hexutil.EncodeUint64`. -/
  EncodeUint64 : Nat → GoString
  /-- Function `hexutil.DecodeBig`. -/
  DecodeBig : GoString → Except Error Int
  /-- Decoding `rlp.DecodeBytes(encodedTx, tx)`. -/
  rlpDecodeTx : List Byte → Except Error EthTransaction
  /-- Recovery `ethTypes.Sender(ethTypes.NewEIP155Signer(chainID), tx)`. -/
  senderEIP155 : Nat → EthTransaction → Except Error Address
  /-- Recovery `ethTypes.Sender(ethTypes.HomesteadSigner{}, tx)`. -/
  senderHomestead : EthTransaction → Except Error Address
  /-- Encoding `rlp.EncodeToBytes(evmTx)`. -/
  rlpEncodeEvmTx : EvmTransaction → Except Error (List Byte)
  /-- Method `tx.Hash()` of the standard transaction. -/
  ethTxHash : EthTransaction → Hash
  /-- Method `Hash()` of `types.Transaction{TxType: types.EvmTx, EvmTx: evmTx}`. -/
  qkcTxHash : EvmTransaction → Hash

/-! ## Operations -/

/-- The loop `for shardID := uint32(0); shardID < u.shardSize; shardID++`, run over
the ids `0, ..., shardSize-1` (a `uint32` counter below `shardSize` never wraps).
An iteration yields `some r` when it returns `r` and `none` when it falls
through to the next id. -/
def tryShards {σ α : Type} (body : Nat → World σ → Option α × World σ) :
    List Nat → World σ → Option α × World σ
  | [], w => (none, w)
  | shardID :: rest, w =>
    match body shardID w with
    | (some r, w') => (some r, w')
    | (none, w') => tryShards body rest w'

/-- The request `GasPrice` sends. -/
def GasPrice.request {σ : Type} (ext : Externals) (u : UnifiedShardAPI σ) : RPCRequest :=
  ⟨"gasPrice", [.str (ext.EncodeUint64 (u.shards.lookup 0).FullShardID)]⟩

/-- Method `GasPrice`. -/
def GasPrice {σ : Type} (ext : Externals) (u : UnifiedShardAPI σ) (w : World σ) :
    Except Error Int × World σ :=
  match Call u.client w (GasPrice.request ext u) with
  | (.error err, w') => (.error err, w')
  | (.ok resp, w') =>
    match resp.Result with
    | .str gasPriceStr =>
      match ext.DecodeBig gasPriceStr with
      | .error err => (.error err, w')
      | .ok gasPrice => (.ok (if gasPrice = 0 then 1 else gasPrice), w')
    | _ => (.error "invalid gas price response", w')

/-- The request one iteration of `GetBlockByHash` sends for `shardID`. -/
def GetBlockByHash.request {σ : Type} (u : UnifiedShardAPI σ) (hash : Hash) (fullTx : Bool)
    (shardID : Nat) : RPCRequest :=
  let fullShardID := (u.shards.lookup shardID).FullShardID
  let hashBytes := hash.bytes
  let blockID := hashBytes ++ Uint32ToBytes fullShardID
  ⟨"getMinorBlockById", [.str (ToHex blockID), .bool fullTx]⟩

/-- What an iteration of `GetBlockByHash` makes of the answer to its probe: an error,
a nil result or a result that is not an object moves on to the next shard; an
object is rewritten and returned. -/
def GetBlockByHash.pick (ext : Externals) : Except Error RPCResponse → Option JObj
  | .error _ => none
  | .ok resp =>
    match resp.Result with
    | .obj block => some (ext.reWriteBlockResult block)
    | _ => none

/-- One iteration of the loop of `GetBlockByHash`. -/
def GetBlockByHash.body {σ : Type} (ext : Externals) (u : UnifiedShardAPI σ) (hash : Hash)
    (fullTx : Bool) (shardID : Nat) (w : World σ) : Option JObj × World σ :=
  let r := Call u.client w (GetBlockByHash.request u hash fullTx shardID)
  (GetBlockByHash.pick ext r.1, r.2)

/-- Method `GetBlockByHash`. -/
def GetBlockByHash {σ : Type} (ext : Externals) (u : UnifiedShardAPI σ) (hash : Hash)
    (fullTx : Bool) (w : World σ) : Except Error (Option JObj) × World σ :=
  match tryShards (GetBlockByHash.body ext u hash fullTx) (List.range u.shardSize) w with
  | (some block, w') => (.ok (some block), w')
  | (none, w') => (.error "block not found", w')

/-- Sender recovery in `SendRawTransaction`: the chain-id signer first, then the
legacy signer. -/
def SendRawTransaction.sender {σ : Type} (ext : Externals) (u : UnifiedShardAPI σ)
    (tx : EthTransaction) : Except Error Address :=
  match ext.senderEIP155 u.chainID tx with
  | .ok sender => .ok sender
  | .error _ =>
    match ext.senderHomestead tx with
    | .ok sender => .ok sender
    | .error err => .error ("failed to recover sender: " ++ err)

/-- The native transaction `SendRawTransaction` builds for `tx` signed by `sender`
(shard derivation, construction, signature copy). -/
def SendRawTransaction.evmTx {σ : Type} (u : UnifiedShardAPI σ) (tx : EthTransaction)
    (sender : Address) : EvmTransaction :=
  let fromFullShardKey := deriveFullShardKey u sender
  let toFullShardKey :=
    match tx.To with
    | some recipient => deriveFullShardKey u recipient
    | none => fromFullShardKey
  let evmTx :=
    match tx.To with
    | some recipient =>
      NewEvmTransaction tx.Nonce recipient tx.Value tx.Gas tx.GasPrice fromFullShardKey
        toFullShardKey u.chainID 2 tx.Data 35760 35760
    | none =>
      NewEvmContractCreation tx.Nonce tx.Value tx.Gas tx.GasPrice fromFullShardKey
        toFullShardKey u.chainID 2 tx.Data 35760 35760
  evmTx.SetVRS tx.V tx.R tx.S

/-- The statement `u.hashMap[key] = info`. -/
def UnifiedShardAPI.remember {σ : Type} (u : UnifiedShardAPI σ) (key : Hash)
    (info : txHashInfo) : UnifiedShardAPI σ :=
  { u with hashMap := fun h => if h = key then some info else u.hashMap h }

/-- Method `SendRawTransaction`: the returned hash or error, the gateway afterwards,
and the world afterwards. -/
def SendRawTransaction {σ : Type} (ext : Externals) (u : UnifiedShardAPI σ)
    (encodedTx : List Byte) (w : World σ) : Except Error Hash × UnifiedShardAPI σ × World σ :=
  match ext.rlpDecodeTx encodedTx with
  | .error err => (.error ("failed to decode transaction: " ++ err), u, w)
  | .ok tx =>
    match SendRawTransaction.sender ext u tx with
    | .error err => (.error err, u, w)
    | .ok sender =>
      let fromFullShardID := getFullShardIDForAddress u sender
      let evmTx := SendRawTransaction.evmTx u tx sender
      match ext.rlpEncodeEvmTx evmTx with
      | .error err => (.error ("failed to encode transaction: " ++ err), u, w)
      | .ok rlpTxBytes =>
        match Call u.client w ⟨"sendRawTransaction", [.str (ToHex rlpTxBytes)]⟩ with
        | (.error err, w') => (.error err, u, w')
        | (.ok _, w') =>
          (.ok (ext.qkcTxHash evmTx),
           u.remember (ext.ethTxHash tx)
             { qkcHash := ext.qkcTxHash evmTx, fullShardID := fromFullShardID },
           w')

/-- The test `v != nil` on an `interface{}` read from a decoded document. -/
def JSON.notNil : JSON → Bool
  | .null => false
  | _ => true

/-- The rewriting `getTransactionByID` applies to a native transaction document. -/
def getTransactionByID.adapt (ans : JObj) : JObj :=
  let ans :=
    match ans.get "from" with
    | .str fromStr => if fromStr.length > 42 then ans.set "from" (.str (fromStr.take 42)) else ans
    | _ => ans
  let ans :=
    match ans.get "to" with
    | .str toStr =>
      if toStr.length > 42 then ans.set "to" (.str (toStr.take 42))
      else if toStr.length ≤ 2 then ans.delete "to"
      else ans
    | _ => ans
  let ans := if (ans.get "data").notNil then ans.set "input" (ans.get "data") else ans
  let ans :=
    match ans.get "blockId" with
    | .str blockIdStr =>
      if blockIdStr.length > 66 then ans.set "blockHash" (.str (blockIdStr.take 66)) else ans
    | _ => ans
  let ans := if (ans.get "blockHeight").notNil then ans.set "blockNumber" (ans.get "blockHeight") else ans
  ans

/-- The request `getTransactionByID` sends. -/
def getTransactionByID.request (txID : List Byte) : RPCRequest :=
  ⟨"getTransactionById", [.str (ToHex txID)]⟩

/-- Method `getTransactionByID`. -/
def getTransactionByID {σ : Type} (u : UnifiedShardAPI σ) (txID : List Byte) (w : World σ) :
    Except Error (Option JObj) × World σ :=
  match Call u.client w (getTransactionByID.request txID) with
  | (.error err, w') => (.error err, w')
  | (.ok resp, w') =>
    match resp.Result with
    | .obj ans => (.ok (some (getTransactionByID.adapt ans)), w')
    | _ => (.ok none, w')

/-- What a fan-out iteration of a transaction or receipt lookup keeps of the answer
to its probe: the adapted document when the answer is an object, nothing when the
call failed or the answer is nil or not an object. -/
def pickObject (adapt : JObj → JObj) : Except Error RPCResponse → Option JObj
  | .error _ => none
  | .ok resp =>
    match resp.Result with
    | .obj ans => some (adapt ans)
    | _ => none

/-- The request the fan-out loop of `GetTransactionByHash` sends for `shardID`. -/
def GetTransactionByHash.request {σ : Type} (u : UnifiedShardAPI σ) (ethHash : Hash)
    (shardID : Nat) : RPCRequest :=
  getTransactionByID.request (getTxIDWithShard ethHash (u.shards.lookup shardID).FullShardID)

/-- One iteration of the fan-out loop of `GetTransactionByHash`. -/
def GetTransactionByHash.body {σ : Type} (u : UnifiedShardAPI σ) (ethHash : Hash)
    (shardID : Nat) (w : World σ) : Option JObj × World σ :=
  let fullShardID := (u.shards.lookup shardID).FullShardID
  let txID := getTxIDWithShard ethHash fullShardID
  match getTransactionByID u txID w with
  | (.ok (some result), w') => (some result, w')
  | (_, w') => (none, w')

/-- Method `GetTransactionByHash`. -/
def GetTransactionByHash {σ : Type} (u : UnifiedShardAPI σ) (ethHash : Hash) (w : World σ) :
    Except Error (Option JObj) × World σ :=
  match u.hashMap ethHash with
  | some info =>
    let txID := getTxIDWithShard info.qkcHash info.fullShardID
    getTransactionByID u txID w
  | none =>
    match tryShards (GetTransactionByHash.body u ethHash) (List.range u.shardSize) w with
    | (some result, w') => (.ok (some result), w')
    | (none, w') => (.ok none, w')

/-- The rewriting `getTransactionReceipt` applies to a native receipt document. -/
def getTransactionReceipt.adapt (ext : Externals) (ans : JObj) : JObj :=
  let ans :=
    match ans.get "contractAddress" with
    | .str addrStr =>
      if addrStr.length > 42 then ans.set "contractAddress" (.str (addrStr.take 42)) else ans
    | _ => ans
  let ans :=
    if (ans.get "logsBloom").notNil then ans
    else ans.set "logsBloom" (.str (ToHex (List.replicate ext.BloomByteLength 0)))
  ans

/-- The request `getTransactionReceipt` sends. -/
def getTransactionReceipt.request (txID : List Byte) : RPCRequest :=
  ⟨"getTransactionReceipt", [.str (ToHex txID)]⟩

/-- Method `getTransactionReceipt` (by native id). -/
def getTransactionReceipt {σ : Type} (ext : Externals) (u : UnifiedShardAPI σ)
    (txID : List Byte) (w : World σ) : Except Error (Option JObj) × World σ :=
  match Call u.client w (getTransactionReceipt.request txID) with
  | (.error err, w') => (.error err, w')
  | (.ok resp, w') =>
    match resp.Result with
    | .obj ans => (.ok (some (getTransactionReceipt.adapt ext ans)), w')
    | _ => (.ok none, w')

/-- The request the fan-out loop of `GetTransactionReceipt` sends for `shardID`. -/
def GetTransactionReceipt.request {σ : Type} (u : UnifiedShardAPI σ) (ethHash : Hash)
    (shardID : Nat) : RPCRequest :=
  getTransactionReceipt.request (getTxIDWithShard ethHash (u.shards.lookup shardID).FullShardID)

/-- One iteration of the fan-out loop of `GetTransactionReceipt`. -/
def GetTransactionReceipt.body {σ : Type} (ext : Externals) (u : UnifiedShardAPI σ)
    (ethHash : Hash) (shardID : Nat) (w : World σ) : Option JObj × World σ :=
  let fullShardID := (u.shards.lookup shardID).FullShardID
  let txID := getTxIDWithShard ethHash fullShardID
  match getTransactionReceipt ext u txID w with
  | (.ok (some result), w') => (some result, w')
  | (_, w') => (none, w')

/-- Method `GetTransactionReceipt` (by standard hash). -/
def GetTransactionReceipt {σ : Type} (ext : Externals) (u : UnifiedShardAPI σ) (ethHash : Hash)
    (w : World σ) : Except Error (Option JObj) × World σ :=
  match u.hashMap ethHash with
  | some info =>
    let txID := getTxIDWithShard info.qkcHash info.fullShardID
    getTransactionReceipt ext u txID w
  | none =>
    match tryShards (GetTransactionReceipt.body ext u ethHash) (List.range u.shardSize) w with
    | (some result, w') => (.ok (some result), w')
    | (none, w') => (.ok none, w')

/-! ## A concrete deployment

Four shards whose native ids are `4, 5, 6, 7` (normalized indices `0, 1, 2, 3`),
used to run the operations on concrete inputs. -/

namespace Demo

/-- The descriptors of the four shards. -/
def shards : List ShardInfo :=
  [⟨4, 0⟩, ⟨5, 0⟩, ⟨6, 0⟩, ⟨7, 0⟩]

/-- A 32-byte hash, all bytes `0xab`. -/
def blockHash : Hash := ⟨List.replicate 32 171, by decide⟩

/-- A 20-byte address ending in `0x06`. -/
def addr06 : Address := ⟨List.replicate 19 17 ++ [6], by decide⟩

/-- A native block document. -/
def block : JObj := [("height", .str [48, 120, 49])]

/-- The native hash of a transaction the cluster holds, all bytes `0x86`. -/
def nativeTxHash : Hash := ⟨List.replicate 32 134, by decide⟩

/-- A native transaction document; `from` carries a shard suffix. -/
def transaction : JObj :=
  [("from", .str (ToHex (List.replicate 19 0 ++ [6] ++ [0, 0, 0, 2]))),
   ("data", .str [48, 120])]

/-- A native receipt document, without `logsBloom`. -/
def receipt : JObj := [("status", .str [48, 120, 49])]

/-- A cluster that holds `blockHash`, and the transaction `nativeTxHash` with its
receipt, on the shards with native id `7` and `6`, quotes a gas price of zero, and
answers null to every other request. -/
def client : RPCClient Unit where
  Call := fun st method params =>
    match params with
    | [.str key, _] =>
      if method = "getMinorBlockById" ∧ key = ToHex (blockHash.bytes ++ Uint32ToBytes 7) then
        (.ok ⟨.obj block⟩, st)
      else (.ok ⟨.null⟩, st)
    | [.str key] =>
      if method = "getTransactionById" ∧ key = ToHex (getTxIDWithShard nativeTxHash 6) then
        (.ok ⟨.obj transaction⟩, st)
      else if method = "getTransactionReceipt" ∧ key = ToHex (getTxIDWithShard nativeTxHash 6) then
        (.ok ⟨.obj receipt⟩, st)
      else if method = "gasPrice" then (.ok ⟨.str [48, 120, 48]⟩, st)
      else (.ok ⟨.null⟩, st)
    | _ => (.ok ⟨.null⟩, st)

/-- The gateway `NewUnifiedShardAPI 4 1 shards client` builds. -/
def gateway : UnifiedShardAPI Unit :=
  { shardSize := 4, chainID := 1,
    shards := ShardMap.set (ShardMap.set (ShardMap.set (ShardMap.set (fun _ => none) 0 ⟨4, 0⟩)
      1 ⟨5, 0⟩) 2 ⟨6, 0⟩) 3 ⟨7, 0⟩,
    client := client, hashMap := fun _ => none }

/-- The world before any call. -/
def world : World Unit := ⟨(), []⟩

/-- A raw transaction: nonce byte 6, then a 20-byte recipient ending in `0x01`. -/
def rawTx : List Byte := [6] ++ (List.replicate 19 34 ++ [1])

/-- A raw contract creation: nonce byte 7 and no recipient. -/
def rawCreation : List Byte := [7]

/-- The standard hash of `rawTx`, all bytes `0x06`. -/
def ethHash : Hash := ⟨List.replicate 32 6, by decide⟩

/-- The sender the legacy signer recovers for `rawTx`: an address ending in `0x06`. -/
def sender : Address := ⟨List.replicate 19 0 ++ [6], by decide⟩

/-- A 32-byte hash the cluster does not know, all bytes `0xcd`. -/
def otherHash : Hash := ⟨List.replicate 32 205, by decide⟩

/-- The value of an ASCII hex digit. -/
def hexValue (b : Byte) : Option Nat :=
  if 48 ≤ b.val ∧ b.val ≤ 57 then some (b.val - 48)
  else if 97 ≤ b.val ∧ b.val ≤ 102 then some (b.val - 87)
  else if 65 ≤ b.val ∧ b.val ≤ 70 then some (b.val - 55)
  else none

/-- The number written by a list of hex digits, most significant first. -/
def hexNumber : List Byte → Nat → Option Nat
  | [], acc => some acc
  | d :: rest, acc =>
    match hexValue d with
    | some v => hexNumber rest (16 * acc + v)
    | none => none

/-- A stand-in for the external packages: hex quantities are `0x` followed by
digits, a raw transaction is its nonce byte followed by the recipient (absent when
fewer than 20 bytes follow), the chain-id signer always fails and the legacy
signer recovers an address ending in the nonce byte. -/
def externals : Externals where
  reWriteBlockResult := fun block => block.set "number" (block.get "height")
  BloomByteLength := 256
  EncodeUint64 := fun n => [48, 120] ++ (Nat.toDigits 16 n).map (fun ch => byteOf ch.toNat)
  DecodeBig := fun s =>
    if s.take 2 = [48, 120] ∧ 2 < s.length then
      match hexNumber (s.drop 2) 0 with
      | some v => .ok (Int.ofNat v)
      | none => .error "invalid hex string"
    else .error "hex string without 0x prefix"
  rlpDecodeTx := fun raw =>
    match raw with
    | [] => .error "EOF"
    | n :: rest =>
      .ok { Nonce := n.val, GasPrice := 1, Gas := 21000,
            To := if h : rest.length = 20 then some ⟨rest, h⟩ else none,
            Value := 0, Data := [], V := 27, R := 1, S := 1 }
  senderEIP155 := fun _ _ => .error "invalid chain id for signer"
  senderHomestead := fun tx => .ok ⟨List.replicate 19 0 ++ [byteOf tx.Nonce], by simp⟩
  rlpEncodeEvmTx := fun evmTx => .ok [byteOf evmTx.Nonce, byteOf evmTx.FromFullShardKey,
    byteOf evmTx.ToFullShardKey]
  ethTxHash := fun tx => ⟨List.replicate 32 (byteOf tx.Nonce), by simp⟩
  qkcTxHash := fun evmTx => ⟨List.replicate 32 (byteOf (evmTx.Nonce + 128)), by simp⟩

end Demo

/-! ## Facts about masks and powers of two -/

theorem u32sub_one {n : Nat} (h0 : n ≠ 0) (h : n < 2 ^ 32) : u32sub n 1 = n - 1 := by
  unfold u32sub
  omega

theorem and_pred_pow_two (k : Nat) : 2 ^ k &&& (2 ^ k - 1) = 0 := by
  rw [Nat.and_pow_two_sub_one_eq_mod, Nat.mod_self]

theorem pow_two_of_and_pred : ∀ n : Nat, n ≠ 0 → n &&& (n - 1) = 0 → ∃ k, n = 2 ^ k := by
  intro n
  induction n using Nat.strong_induction_on with
  | _ n ih =>
    intro h0 hand
    have hdiv : (n &&& (n - 1)) / 2 = n / 2 &&& (n - 1) / 2 := Nat.and_div_two
    rw [hand] at hdiv
    rcases Nat.even_or_odd n with he | ho
    · obtain ⟨m, hm⟩ := he
      have hm0 : m ≠ 0 := by omega
      have h1 : n / 2 = m := by omega
      have h2 : (n - 1) / 2 = m - 1 := by omega
      rw [h1, h2] at hdiv
      obtain ⟨k, hk⟩ := ih m (by omega) hm0 hdiv.symm
      exact ⟨k + 1, by rw [pow_succ]; omega⟩
    · obtain ⟨m, hm⟩ := ho
      have h1 : n / 2 = m := by omega
      have h2 : (n - 1) / 2 = m := by omega
      rw [h1, h2, Nat.and_self] at hdiv
      exact ⟨0, by simp at hdiv; omega⟩

/-! ## Construction -/

theorem NewUnifiedShardAPI_ok {σ : Type} {sz cid : Nat} {shards : List ShardInfo}
    {client : RPCClient σ} {u : UnifiedShardAPI σ}
    (hnew : NewUnifiedShardAPI sz cid shards client = .ok u) :
    sz ≠ 0 ∧ sz &&& u32sub sz 1 = 0 ∧ shards.length % 2 ^ 32 = sz ∧
    ∃ m, NewUnifiedShardAPI.build sz shards (fun _ => none) = .ok m ∧
      NewUnifiedShardAPI.verify m (List.range sz) = .ok () ∧
      u = { shardSize := sz, chainID := cid, shards := m, client := client,
            hashMap := fun _ => none } := by
  unfold NewUnifiedShardAPI at hnew
  split at hnew
  · cases hnew
  · rename_i h1
    split at hnew
    · cases hnew
    · rename_i h2
      split at hnew
      · cases hnew
      · rename_i m hm
        split at hnew
        · cases hnew
        · rename_i x hv
          refine ⟨fun h => h1 (Or.inl h), ?_, ?_, m, hm, hv, ?_⟩
          · by_contra h; exact h1 (Or.inr h)
          · by_contra h; exact h2 h
          · injection hnew with h; exact h.symm

theorem build_spec (sz : Nat) : ∀ (l : List ShardInfo) (m m' : ShardMap),
    NewUnifiedShardAPI.build sz l m = .ok m' →
    (∀ k, (m' k).isSome ↔ ((m k).isSome ∨ k ∈ l.map (fun s => s.FullShardID &&& u32sub sz 1))) ∧
    (∀ k s, m' k = some s → m k = some s ∨ (s ∈ l ∧ s.FullShardID &&& u32sub sz 1 = k)) ∧
    (l.map (fun s => s.FullShardID &&& u32sub sz 1)).Nodup := by
  intro l
  induction l with
  | nil =>
    intro m m' h
    simp only [NewUnifiedShardAPI.build] at h
    injection h with h
    subst h
    simp
  | cons s rest ih =>
    intro m m' h
    simp only [NewUnifiedShardAPI.build] at h
    split at h
    · cases h
    · rename_i hnone
      obtain ⟨h1, h2, h3⟩ := ih _ _ h
      have hset : ∀ k, ((m.set (s.FullShardID &&& u32sub sz 1) s) k).isSome ↔
          ((m k).isSome ∨ k = s.FullShardID &&& u32sub sz 1) := by
        intro k
        unfold ShardMap.set
        by_cases hk : k = s.FullShardID &&& u32sub sz 1
        · simp [hk]
        · simp [hk]
      refine ⟨?_, ?_, ?_⟩
      · intro k
        rw [h1 k, hset k]
        simp only [List.map_cons, List.mem_cons]
        tauto
      · intro k s' hs'
        rcases h2 k s' hs' with h | ⟨hmem, hk⟩
        · unfold ShardMap.set at h
          split at h
          · rename_i hk
            injection h with h
            subst h
            exact Or.inr ⟨List.mem_cons_self _ _, hk.symm⟩
          · exact Or.inl h
        · exact Or.inr ⟨List.mem_cons_of_mem _ hmem, hk⟩
      · rw [List.map_cons, List.nodup_cons]
        refine ⟨fun hmem => ?_, h3⟩
        have hin := (h1 (s.FullShardID &&& u32sub sz 1)).2 (Or.inr hmem)
        -- the key was inserted, so the remaining descriptors would have hit a duplicate
        have key : ∀ (l : List ShardInfo) (m m' : ShardMap),
            NewUnifiedShardAPI.build sz l m = .ok m' →
            ∀ k ∈ l.map (fun s => s.FullShardID &&& u32sub sz 1), (m k).isSome = false := by
          intro l
          induction l with
          | nil => intro m m' _ k hk; simp at hk
          | cons t rest ih2 =>
            intro m m' hb k hk
            simp only [NewUnifiedShardAPI.build] at hb
            split at hb
            · cases hb
            · rename_i hn
              simp only [List.map_cons, List.mem_cons] at hk
              rcases hk with hk | hk
              · subst hk; simpa using hn
              · have := ih2 _ _ hb k hk
                unfold ShardMap.set at this
                split at this
                · simp at this
                · exact this
        have := key rest _ _ h _ hmem
        simp [ShardMap.set] at this

theorem verify_spec (m : ShardMap) : ∀ l : List Nat,
    NewUnifiedShardAPI.verify m l = .ok () → ∀ i ∈ l, (m i).isSome := by
  intro l
  induction l with
  | nil => intro _ i hi; simp at hi
  | cons j rest ih =>
    intro h i hi
    simp only [NewUnifiedShardAPI.verify] at h
    split at h
    · cases h
    · rename_i hj
      rcases List.mem_cons.1 hi with rfl | hi
      · simpa [Option.isNone_iff_eq_none, Option.isSome_iff_ne_none] using hj
      · exact ih h i hi

theorem Demo.gateway_built :
    NewUnifiedShardAPI 4 1 Demo.shards Demo.client = .ok Demo.gateway := rfl

theorem three_not_pow_two : ¬ ∃ k, 3 = 2 ^ k := by
  rintro ⟨k, hk⟩
  rcases k with _ | _ | k
  · simp at hk
  · simp at hk
  · have : 2 ^ (k + 1 + 1) = 4 * 2 ^ k := by ring
    omega

theorem deriveShardID_eq_mask_aux {σ : Type} {sz cid : Nat} {shards : List ShardInfo}
    {client : RPCClient σ} {u : UnifiedShardAPI σ} (hsz : sz < 2 ^ 32)
    (hnew : NewUnifiedShardAPI sz cid shards client = .ok u) (A : Address) :
    deriveShardID u A < sz := by
  obtain ⟨h0, hand, _, m, _, _, hu⟩ := NewUnifiedShardAPI_ok hnew
  subst hu
  rw [u32sub_one h0 hsz] at hand
  obtain ⟨e, he⟩ := pow_two_of_and_pred sz h0 hand
  simp only [deriveShardID, u32sub_one h0 hsz]
  rw [he, Nat.and_pow_two_sub_one_eq_mod]
  exact Nat.mod_lt _ (by positivity)

/-! ## Shard derivation and construction -/

/-- C1: for a gateway built by `NewUnifiedShardAPI` with shard count `sz`, the
shard index of an address is `lastByte & (sz - 1)`, which equals `lastByte mod sz`
and is below `sz`; any gateway with the same shard count gives the same index to
any address with the same last byte. -/
theorem deriveShardID_eq_mask {σ : Type} {sz cid : Nat} {shards : List ShardInfo}
    {client : RPCClient σ} {u : UnifiedShardAPI σ} (hsz : sz < 2 ^ 32)
    (hnew : NewUnifiedShardAPI sz cid shards client = .ok u) (A : Address) :
    deriveShardID u A = A.lastByte.val &&& (sz - 1) ∧
    deriveShardID u A = A.lastByte.val % sz ∧
    deriveShardID u A < sz ∧
    (∃ e, sz = 2 ^ e) ∧
    ∀ {τ : Type} (v : UnifiedShardAPI τ) (B : Address),
      v.shardSize = sz → B.lastByte = A.lastByte → deriveShardID v B = deriveShardID u A := by
  obtain ⟨h0, hand, _, m, _, _, hu⟩ := NewUnifiedShardAPI_ok hnew
  subst hu
  rw [u32sub_one h0 hsz] at hand
  obtain ⟨e, he⟩ := pow_two_of_and_pred sz h0 hand
  have hmask : ∀ x : Nat, x &&& (sz - 1) = x % sz := by
    intro x
    rw [he, Nat.and_pow_two_sub_one_eq_mod]
  have hd : deriveShardID
      ({ shardSize := sz, chainID := cid, shards := m, client := client,
         hashMap := fun _ => none } : UnifiedShardAPI σ) A = A.lastByte.val &&& (sz - 1) := by
    simp only [deriveShardID, u32sub_one h0 hsz]
  refine ⟨hd, ?_, ?_, ⟨e, he⟩, ?_⟩
  · rw [hd, hmask]
  · rw [hd, hmask]
    exact Nat.mod_lt _ (Nat.pos_of_ne_zero h0)
  · intro τ v B hv hB
    rw [hd]
    simp only [deriveShardID, hv, hB, u32sub_one h0 hsz]

/-- C1 at shard count 4 and an address ending in `0x06`: the index is 2. -/
theorem deriveShardID_eq_mask_witness :
    deriveShardID Demo.gateway Demo.addr06 = 2 ∧
    deriveShardID Demo.gateway Demo.addr06 = Demo.addr06.lastByte.val &&& (4 - 1) ∧
    Demo.addr06.lastByte.val = 6 :=
  ⟨by decide, (deriveShardID_eq_mask (by decide) Demo.gateway_built Demo.addr06).1, by decide⟩

/-- C2: for every `uint32` shard count that is not a power of two (0 included),
whatever the chain id, the descriptors and the client, `NewUnifiedShardAPI`
returns the error "shardSize must be power of 2" and no gateway. -/
theorem NewUnifiedShardAPI_rejects_non_power_of_two {σ : Type} (sz cid : Nat)
    (shards : List ShardInfo) (client : RPCClient σ) (hsz : sz < 2 ^ 32)
    (hnp : ¬ ∃ e, sz = 2 ^ e) :
    NewUnifiedShardAPI sz cid shards client =
      .error ("shardSize must be power of 2, got " ++ toString sz) := by
  unfold NewUnifiedShardAPI
  rw [if_pos]
  by_cases h0 : sz = 0
  · exact Or.inl h0
  · right
    intro hand
    rw [u32sub_one h0 hsz] at hand
    exact hnp (pow_two_of_and_pred sz h0 hand)

/-- C2 at shard count 3 with four descriptors. -/
theorem NewUnifiedShardAPI_rejects_non_power_of_two_witness :
    (¬ ∃ e, 3 = 2 ^ e) ∧
    NewUnifiedShardAPI 3 1 Demo.shards Demo.client =
      .error ("shardSize must be power of 2, got " ++ toString 3) :=
  ⟨three_not_pow_two,
   NewUnifiedShardAPI_rejects_non_power_of_two 3 1 Demo.shards Demo.client (by decide)
     three_not_pow_two⟩

theorem NewUnifiedShardAPI_spec {σ : Type} {sz cid : Nat} {shards : List ShardInfo}
    {client : RPCClient σ} {u : UnifiedShardAPI σ} (hsz : sz < 2 ^ 32)
    (hnew : NewUnifiedShardAPI sz cid shards client = .ok u) :
    u.shardSize = sz ∧ ∀ k, (u.shards k).isSome ↔ k < sz := by
  obtain ⟨h0, hand, _, m, hb, hv, hu⟩ := NewUnifiedShardAPI_ok hnew
  obtain ⟨hkeys, _, _⟩ := build_spec sz shards _ m hb
  have hver := verify_spec m _ hv
  rw [u32sub_one h0 hsz] at hand hkeys
  obtain ⟨e, he⟩ := pow_two_of_and_pred sz h0 hand
  subst hu
  refine ⟨rfl, fun k => ⟨fun hk => ?_, fun hk => hver k (List.mem_range.2 hk)⟩⟩
  rcases (hkeys k).1 hk with h | h
  · simp at h
  · obtain ⟨s, _, rfl⟩ := List.mem_map.1 h
    rw [he, Nat.and_pow_two_sub_one_eq_mod]
    exact Nat.mod_lt _ (by positivity)

/-- C3: when `NewUnifiedShardAPI` succeeds, the shard count is a power of two, the
keys of the shard table are exactly `0, ..., sz-1`, the entry at key `k` is an
input descriptor whose `FullShardID & (sz-1)` is `k`, the normalized indices of
the input descriptors are a rearrangement of `0, ..., sz-1` (no gap, no
duplicate), and the lookups at the shard index of any address and at index 0
find an entry. -/
theorem NewUnifiedShardAPI_table_invariant {σ : Type} {sz cid : Nat} {shards : List ShardInfo}
    {client : RPCClient σ} {u : UnifiedShardAPI σ} (hsz : sz < 2 ^ 32)
    (hnew : NewUnifiedShardAPI sz cid shards client = .ok u) :
    u.shardSize = sz ∧ (∃ e, sz = 2 ^ e) ∧
    (∀ k, (u.shards k).isSome ↔ k < sz) ∧
    (∀ k s, u.shards k = some s → s ∈ shards ∧ s.FullShardID &&& (sz - 1) = k) ∧
    (shards.map (normalizedIndex sz)).Perm (List.range sz) ∧
    (∀ A : Address, ∃ s, u.shards (deriveShardID u A) = some s ∧
      getFullShardIDForAddress u A = s.FullShardID) ∧
    (∃ s, u.shards 0 = some s ∧ (u.shards.lookup 0).FullShardID = s.FullShardID) := by
  have hlt := fun A => deriveShardID_eq_mask_aux hsz hnew A
  obtain ⟨hsize, hdom⟩ := NewUnifiedShardAPI_spec hsz hnew
  obtain ⟨h0, hand, _, m, hb, _, hu⟩ := NewUnifiedShardAPI_ok hnew
  obtain ⟨hkeys, hentries, hnodup⟩ := build_spec sz shards _ m hb
  rw [u32sub_one h0 hsz] at hand hkeys hentries hnodup
  have hsome : ∀ k, k < sz → ∃ s, u.shards k = some s := fun k hk =>
    Option.isSome_iff_exists.1 ((hdom k).2 hk)
  have hshards : u.shards = m := by rw [hu]
  refine ⟨hsize, pow_two_of_and_pred sz h0 hand, hdom, ?_, ?_, ?_, ?_⟩
  · intro k s hs
    rw [hshards] at hs
    rcases hentries k s hs with h | h
    · simp at h
    · exact h
  · refine (List.perm_ext_iff_of_nodup hnodup (List.nodup_range sz)).2 (fun k => ?_)
    rw [List.mem_range, ← hdom k, hshards, hkeys k]
    simp [normalizedIndex]
  · intro A
    obtain ⟨s, hs⟩ := hsome _ (hlt A)
    exact ⟨s, hs, by simp only [getFullShardIDForAddress, ShardMap.lookup]; rw [hs]; rfl⟩
  · obtain ⟨s, hs⟩ := hsome 0 (Nat.pos_of_ne_zero h0)
    exact ⟨s, hs, by simp only [ShardMap.lookup]; rw [hs]; rfl⟩

/-- C3 on the four-shard deployment: index 2 holds the descriptor with native id 6. -/
theorem NewUnifiedShardAPI_table_invariant_witness :
    Demo.gateway.shards 2 = some ⟨6, 0⟩ ∧
    ((Demo.gateway.shards 2).isSome ↔ 2 < 4) :=
  ⟨rfl, (NewUnifiedShardAPI_table_invariant (by decide) Demo.gateway_built).2.2.1 2⟩

/-! ## Fan-out over the shards -/

theorem Call_log {σ : Type} (c : RPCClient σ) (w : World σ) (r : RPCRequest) :
    (Call c w r).2.log = w.log ++ [r] := rfl

theorem afterCalls_snoc {σ : Type} (c : RPCClient σ) (w : World σ) (reqs : List RPCRequest)
    (r : RPCRequest) : afterCalls c w (reqs ++ [r]) = (Call c (afterCalls c w reqs) r).2 := by
  simp [afterCalls, List.foldl_append]

theorem afterCalls_log {σ : Type} (c : RPCClient σ) (reqs : List RPCRequest) :
    ∀ w : World σ, (afterCalls c w reqs).log = w.log ++ reqs := by
  induction reqs with
  | nil => intro w; simp [afterCalls]
  | cons r rest ih =>
    intro w
    have h := ih (Call c w r).2
    simp only [afterCalls, List.foldl_cons] at h ⊢
    rw [h, Call_log]
    simp

theorem probeWorld_zero {σ : Type} (c : RPCClient σ) (req : Nat → RPCRequest) (w : World σ) :
    probeWorld c req w 0 = w := rfl

theorem probeWorld_succ {σ : Type} (c : RPCClient σ) (req : Nat → RPCRequest) (w : World σ)
    (k : Nat) : probeWorld c req w (k + 1) = (Call c (probeWorld c req w k) (req k)).2 := by
  simp [probeWorld, List.range_succ, afterCalls_snoc]

theorem probeWorld_log {σ : Type} (c : RPCClient σ) (req : Nat → RPCRequest) (w : World σ)
    (k : Nat) : (probeWorld c req w k).log = w.log ++ (List.range k).map req :=
  afterCalls_log c _ w

/-- A loop whose iteration issues one call and decides by `pick` on the answer falls
through every shard whose answer is not picked. -/
theorem tryShards_all_miss {σ α : Type} (c : RPCClient σ) (req : Nat → RPCRequest)
    (pick : Except Error RPCResponse → Option α) (body : Nat → World σ → Option α × World σ)
    (hbody : ∀ i w, body i w = (pick (Call c w (req i)).1, (Call c w (req i)).2))
    (w : World σ) : ∀ n s,
    (∀ i, s ≤ i → i < s + n → pick (probeAnswer c req w i) = none) →
    tryShards body (List.range' s n) (probeWorld c req w s) =
      (none, probeWorld c req w (s + n)) := by
  intro n
  induction n with
  | zero => intro s _; rfl
  | succ n ih =>
    intro s hmiss
    have hs := hmiss s (Nat.le_refl s) (by omega)
    simp only [List.range'_succ, tryShards, hbody]
    unfold probeAnswer at hs
    rw [hs, ← probeWorld_succ]
    simp only
    rw [ih (s + 1) (fun i h1 h2 => hmiss i (by omega) (by omega))]
    congr 2
    omega

/-- Such a loop returns what `pick` makes of the first answer it picks, and stops there. -/
theorem tryShards_first_hit {σ α : Type} (c : RPCClient σ) (req : Nat → RPCRequest)
    (pick : Except Error RPCResponse → Option α) (body : Nat → World σ → Option α × World σ)
    (hbody : ∀ i w, body i w = (pick (Call c w (req i)).1, (Call c w (req i)).2))
    (w : World σ) (k : Nat) (r : α) (hhit : pick (probeAnswer c req w k) = some r) : ∀ n s,
    s ≤ k → k < s + n →
    (∀ i, s ≤ i → i < k → pick (probeAnswer c req w i) = none) →
    tryShards body (List.range' s n) (probeWorld c req w s) =
      (some r, probeWorld c req w (k + 1)) := by
  intro n
  induction n with
  | zero => intro s h1 h2; omega
  | succ n ih =>
    intro s hsk hkn hmiss
    simp only [List.range'_succ, tryShards, hbody]
    by_cases hEq : s = k
    · subst hEq
      unfold probeAnswer at hhit
      rw [hhit, ← probeWorld_succ]
    · have hs := hmiss s (Nat.le_refl s) (by omega)
      unfold probeAnswer at hs
      rw [hs, ← probeWorld_succ]
      simp only
      exact ih (s + 1) (by omega) (by omega) (fun i h1 h2 => hmiss i (by omega) h2)

/-- Among the shards up to one whose answer is picked there is a first such shard. -/
theorem exists_first_pick {α : Type} (f : Nat → Option α) (k : Nat) (hk : (f k).isSome) :
    ∃ j, j ≤ k ∧ (f j).isSome ∧ ∀ i, i < j → f i = none := by
  classical
  have hex : ∃ j, (f j).isSome := ⟨k, hk⟩
  refine ⟨Nat.find hex, Nat.find_min' hex hk, Nat.find_spec hex, fun i hi => ?_⟩
  have := Nat.find_min hex hi
  simpa [Option.isSome_iff_ne_none] using this

theorem Constructed.entry {σ : Type} {u : UnifiedShardAPI σ} (hv : u.Constructed) :
    ∀ i, i < u.shardSize → ∃ s, u.shards i = some s ∧ (u.shards.lookup i).FullShardID = s.FullShardID := by
  obtain ⟨sz, cid, shards, u0, hsz, hnew, hu⟩ := hv
  obtain ⟨hsize, hdom⟩ := NewUnifiedShardAPI_spec hsz hnew
  intro i hi
  have hshards : u.shards = u0.shards := by rw [hu]
  have hsize' : u.shardSize = u0.shardSize := by rw [hu]
  rw [hsize', hsize] at hi
  obtain ⟨s, hs⟩ := Option.isSome_iff_exists.1 ((hdom i).2 hi)
  exact ⟨s, by rw [hshards, hs], by simp only [ShardMap.lookup]; rw [hshards, hs]; rfl⟩

theorem Demo.gateway_constructed : Demo.gateway.Constructed :=
  ⟨4, 1, Demo.shards, Demo.gateway, by decide, Demo.gateway_built, rfl⟩

theorem GetBlockByHash.pick_eq_none (ext : Externals) (r : Except Error RPCResponse) :
    GetBlockByHash.pick ext r = none ↔ ∀ block, r ≠ .ok ⟨.obj block⟩ := by
  cases r with
  | error e => simp [GetBlockByHash.pick]
  | ok resp =>
    obtain ⟨res⟩ := resp
    cases res <;> simp [GetBlockByHash.pick]

theorem GetBlockByHash.pick_isSome (ext : Externals) (r : Except Error RPCResponse)
    (h : (GetBlockByHash.pick ext r).isSome) :
    ∃ block, r = .ok ⟨.obj block⟩ ∧
      GetBlockByHash.pick ext r = some (ext.reWriteBlockResult block) := by
  cases r with
  | error e => simp [GetBlockByHash.pick] at h
  | ok resp =>
    obtain ⟨res⟩ := resp
    cases res <;> simp [GetBlockByHash.pick] at h ⊢

theorem GetBlockByHash.request_eq {σ : Type} {u : UnifiedShardAPI σ} (hv : u.Constructed)
    (hash : Hash) (fullTx : Bool) : ∀ i, i < u.shardSize →
    ∃ s, u.shards i = some s ∧ GetBlockByHash.request u hash fullTx i =
      ⟨"getMinorBlockById",
        [.str (ToHex (hash.bytes ++ bigEndianUint32 s.FullShardID)), .bool fullTx]⟩ := by
  intro i hi
  obtain ⟨s, hs, hid⟩ := Constructed.entry hv i hi
  exact ⟨s, hs, by simp only [GetBlockByHash.request, Uint32ToBytes, hid]⟩

/-! ## Block lookup by hash -/

/-- C4: on a constructed gateway, if the probe of some shard `k` is answered without
error by a JSON object, then there is a smallest such shard `j`; `GetBlockByHash`
succeeds with the rewritten block of shard `j`; the calls it issues are exactly
the probes of shards `0, 1, ..., j` in this order (shards whose probe fails or is
answered by null or a non-object are passed over, and no shard after `j` is
probed); and the probe of shard `i` is `getMinorBlockById` keyed by the hash
bytes followed by the four big-endian bytes of that shard's native id. -/
theorem GetBlockByHash_returns_first_hit {σ : Type} (ext : Externals) (u : UnifiedShardAPI σ)
    (hv : u.Constructed) (hash : Hash) (fullTx : Bool) (w : World σ) (k : Nat) (b : JObj)
    (hk : k < u.shardSize)
    (hhit : probeAnswer u.client (GetBlockByHash.request u hash fullTx) w k = .ok ⟨.obj b⟩) :
    ∃ j block, j ≤ k ∧
      probeAnswer u.client (GetBlockByHash.request u hash fullTx) w j = .ok ⟨.obj block⟩ ∧
      (∀ i, i < j → ∀ b', probeAnswer u.client (GetBlockByHash.request u hash fullTx) w i ≠
        .ok ⟨.obj b'⟩) ∧
      GetBlockByHash ext u hash fullTx w =
        (.ok (some (ext.reWriteBlockResult block)),
         probeWorld u.client (GetBlockByHash.request u hash fullTx) w (j + 1)) ∧
      (probeWorld u.client (GetBlockByHash.request u hash fullTx) w (j + 1)).log =
        w.log ++ (List.range (j + 1)).map (GetBlockByHash.request u hash fullTx) ∧
      ∀ i, i < u.shardSize → ∃ s, u.shards i = some s ∧
        GetBlockByHash.request u hash fullTx i =
          ⟨"getMinorBlockById",
            [.str (ToHex (hash.bytes ++ bigEndianUint32 s.FullShardID)), .bool fullTx]⟩ := by
  have hsome : (GetBlockByHash.pick ext
      (probeAnswer u.client (GetBlockByHash.request u hash fullTx) w k)).isSome := by
    rw [hhit]; rfl
  obtain ⟨j, hjk, hj, hmin⟩ := exists_first_pick
    (fun i => GetBlockByHash.pick ext
      (probeAnswer u.client (GetBlockByHash.request u hash fullTx) w i)) k hsome
  obtain ⟨block, hans, hpick⟩ := GetBlockByHash.pick_isSome ext _ hj
  refine ⟨j, block, hjk, hans, fun i hi => (GetBlockByHash.pick_eq_none ext _).1 (hmin i hi),
    ?_, probeWorld_log _ _ _ _, GetBlockByHash.request_eq hv hash fullTx⟩
  have hrun := tryShards_first_hit u.client (GetBlockByHash.request u hash fullTx)
    (GetBlockByHash.pick ext) (GetBlockByHash.body ext u hash fullTx) (fun _ _ => rfl) w j _
    hpick u.shardSize 0 (Nat.zero_le j) (by omega) (fun i _ hi => hmin i hi)
  rw [probeWorld_zero, ← List.range_eq_range'] at hrun
  simp only [GetBlockByHash, hrun]

/-- C4 on the four-shard deployment with the block held by shard index 3 only: the
probes of indices 0, 1, 2, 3 are issued and the block of shard 3 is returned. -/
theorem GetBlockByHash_returns_first_hit_witness :
    GetBlockByHash Demo.externals Demo.gateway Demo.blockHash false Demo.world =
      (.ok (some (Demo.externals.reWriteBlockResult Demo.block)),
       ⟨(), (List.range 4).map (GetBlockByHash.request Demo.gateway Demo.blockHash false)⟩) ∧
    ∃ j block, j ≤ 3 ∧
      probeAnswer Demo.gateway.client (GetBlockByHash.request Demo.gateway Demo.blockHash false)
        Demo.world j = .ok ⟨.obj block⟩ ∧
      (∀ i, i < j → ∀ b', probeAnswer Demo.gateway.client
        (GetBlockByHash.request Demo.gateway Demo.blockHash false) Demo.world i ≠
          .ok ⟨.obj b'⟩) ∧
      GetBlockByHash Demo.externals Demo.gateway Demo.blockHash false Demo.world =
        (.ok (some (Demo.externals.reWriteBlockResult block)),
         probeWorld Demo.gateway.client
           (GetBlockByHash.request Demo.gateway Demo.blockHash false) Demo.world (j + 1)) ∧
      (probeWorld Demo.gateway.client (GetBlockByHash.request Demo.gateway Demo.blockHash false)
        Demo.world (j + 1)).log =
        Demo.world.log ++
          (List.range (j + 1)).map (GetBlockByHash.request Demo.gateway Demo.blockHash false) ∧
      ∀ i, i < Demo.gateway.shardSize → ∃ s, Demo.gateway.shards i = some s ∧
        GetBlockByHash.request Demo.gateway Demo.blockHash false i =
          ⟨"getMinorBlockById",
            [.str (ToHex (Demo.blockHash.bytes ++ bigEndianUint32 s.FullShardID)),
             .bool false]⟩ :=
  ⟨rfl, GetBlockByHash_returns_first_hit Demo.externals Demo.gateway Demo.gateway_constructed
    Demo.blockHash false Demo.world 3 Demo.block (by decide) rfl⟩

/-- C5: the code departs from the claim on the four-shard deployment. Every shard
answers null for `otherHash`; the two transaction lookups, which run the same
loop, report the exhausted search as an absent result without error, while
`GetBlockByHash` returns the error "block not found". -/
theorem GetBlockByHash_absent_is_error :
    (∀ i, i < Demo.gateway.shardSize →
      probeAnswer Demo.gateway.client (GetBlockByHash.request Demo.gateway Demo.otherHash false)
        Demo.world i = .ok ⟨.null⟩) ∧
    (GetBlockByHash Demo.externals Demo.gateway Demo.otherHash false Demo.world).1 =
      .error "block not found" ∧
    (GetBlockByHash Demo.externals Demo.gateway Demo.otherHash false Demo.world).1 ≠
      .ok none ∧
    (GetBlockByHash Demo.externals Demo.gateway Demo.otherHash false Demo.world).2.log =
      (List.range 4).map (GetBlockByHash.request Demo.gateway Demo.otherHash false) ∧
    (GetTransactionByHash Demo.gateway Demo.otherHash Demo.world).1 = .ok none ∧
    (GetTransactionReceipt Demo.externals Demo.gateway Demo.otherHash Demo.world).1 =
      .ok none := by
  refine ⟨?_, rfl, ?_, rfl, rfl, rfl⟩
  · intro i hi
    have hi' : i < 4 := hi
    interval_cases i <;> rfl
  · have h : (GetBlockByHash Demo.externals Demo.gateway Demo.otherHash false Demo.world).1 =
        .error "block not found" := rfl
    rw [h]
    intro hc
    cases hc

/-- What `GetBlockByHash` does on an exhausted search, on every gateway: if no shard
answers its probe with a JSON object (each answers null, a non-object, or
fails), all shards `0, ..., shardSize-1` are probed in order and the result is
the error "block not found". -/
theorem GetBlockByHash_absent_returns_error {σ : Type} (ext : Externals)
    (u : UnifiedShardAPI σ) (hash : Hash) (fullTx : Bool) (w : World σ)
    (habs : ∀ i, i < u.shardSize → ∀ b,
      probeAnswer u.client (GetBlockByHash.request u hash fullTx) w i ≠ .ok ⟨.obj b⟩) :
    GetBlockByHash ext u hash fullTx w =
      (.error "block not found",
       probeWorld u.client (GetBlockByHash.request u hash fullTx) w u.shardSize) ∧
    (probeWorld u.client (GetBlockByHash.request u hash fullTx) w u.shardSize).log =
      w.log ++ (List.range u.shardSize).map (GetBlockByHash.request u hash fullTx) := by
  refine ⟨?_, probeWorld_log _ _ _ _⟩
  have hrun := tryShards_all_miss u.client (GetBlockByHash.request u hash fullTx)
    (GetBlockByHash.pick ext) (GetBlockByHash.body ext u hash fullTx) (fun _ _ => rfl) w
    u.shardSize 0
    (fun i _ hi => (GetBlockByHash.pick_eq_none ext _).2 (habs i (by omega)))
  rw [probeWorld_zero, ← List.range_eq_range', Nat.zero_add] at hrun
  simp only [GetBlockByHash, hrun]

/-- The exhausted search of `GetBlockByHash` on the four-shard deployment and a hash
no shard knows. -/
theorem GetBlockByHash_absent_returns_error_witness :
    GetBlockByHash Demo.externals Demo.gateway Demo.otherHash false Demo.world =
      (.error "block not found",
       probeWorld Demo.gateway.client (GetBlockByHash.request Demo.gateway Demo.otherHash false)
         Demo.world Demo.gateway.shardSize) ∧
    (probeWorld Demo.gateway.client (GetBlockByHash.request Demo.gateway Demo.otherHash false)
      Demo.world Demo.gateway.shardSize).log =
      Demo.world.log ++ (List.range Demo.gateway.shardSize).map
        (GetBlockByHash.request Demo.gateway Demo.otherHash false) :=
  GetBlockByHash_absent_returns_error Demo.externals Demo.gateway Demo.otherHash false
    Demo.world (fun i hi b => by
      have hi' : i < 4 := hi
      interval_cases i <;> exact fun h => by cases h)

/-! ## Transaction and receipt lookup -/

theorem pickObject_eq_none (adapt : JObj → JObj) (r : Except Error RPCResponse) :
    pickObject adapt r = none ↔ ∀ ans, r ≠ .ok ⟨.obj ans⟩ := by
  cases r with
  | error e => simp [pickObject]
  | ok resp =>
    obtain ⟨res⟩ := resp
    cases res <;> simp [pickObject]

theorem getTransactionByID_eq {σ : Type} (u : UnifiedShardAPI σ) (txID : List Byte)
    (w : World σ) :
    (getTransactionByID u txID w).2 = (Call u.client w (getTransactionByID.request txID)).2 ∧
    (getTransactionByID u txID w).1 =
      match (Call u.client w (getTransactionByID.request txID)).1 with
      | .error err => .error err
      | .ok resp => .ok (pickObject getTransactionByID.adapt (.ok resp)) := by
  unfold getTransactionByID
  generalize Call u.client w (getTransactionByID.request txID) = p
  obtain ⟨r, w'⟩ := p
  cases r with
  | error e => exact ⟨rfl, rfl⟩
  | ok resp =>
    obtain ⟨res⟩ := resp
    cases res <;> exact ⟨rfl, rfl⟩

theorem getTransactionReceipt_eq {σ : Type} (ext : Externals) (u : UnifiedShardAPI σ)
    (txID : List Byte) (w : World σ) :
    (getTransactionReceipt ext u txID w).2 =
      (Call u.client w (getTransactionReceipt.request txID)).2 ∧
    (getTransactionReceipt ext u txID w).1 =
      match (Call u.client w (getTransactionReceipt.request txID)).1 with
      | .error err => .error err
      | .ok resp => .ok (pickObject (getTransactionReceipt.adapt ext) (.ok resp)) := by
  unfold getTransactionReceipt
  generalize Call u.client w (getTransactionReceipt.request txID) = p
  obtain ⟨r, w'⟩ := p
  cases r with
  | error e => exact ⟨rfl, rfl⟩
  | ok resp =>
    obtain ⟨res⟩ := resp
    cases res <;> exact ⟨rfl, rfl⟩

theorem GetTransactionByHash_body_eq {σ : Type} (u : UnifiedShardAPI σ) (ethHash : Hash)
    (i : Nat) (w : World σ) :
    GetTransactionByHash.body u ethHash i w =
      (pickObject getTransactionByID.adapt
        (Call u.client w (GetTransactionByHash.request u ethHash i)).1,
       (Call u.client w (GetTransactionByHash.request u ethHash i)).2) := by
  simp only [GetTransactionByHash.body, getTransactionByID, GetTransactionByHash.request]
  generalize Call u.client w _ = p
  obtain ⟨r, w'⟩ := p
  cases r with
  | error e => rfl
  | ok resp =>
    obtain ⟨res⟩ := resp
    cases res <;> rfl

theorem GetTransactionReceipt_body_eq {σ : Type} (ext : Externals) (u : UnifiedShardAPI σ)
    (ethHash : Hash) (i : Nat) (w : World σ) :
    GetTransactionReceipt.body ext u ethHash i w =
      (pickObject (getTransactionReceipt.adapt ext)
        (Call u.client w (GetTransactionReceipt.request u ethHash i)).1,
       (Call u.client w (GetTransactionReceipt.request u ethHash i)).2) := by
  simp only [GetTransactionReceipt.body, getTransactionReceipt, GetTransactionReceipt.request]
  generalize Call u.client w _ = p
  obtain ⟨r, w'⟩ := p
  cases r with
  | error e => rfl
  | ok resp =>
    obtain ⟨res⟩ := resp
    cases res <;> rfl

theorem lookup_request_eq {σ : Type} {u : UnifiedShardAPI σ} (hv : u.Constructed)
    (h : Hash) : ∀ i, i < u.shardSize →
    ∃ s, u.shards i = some s ∧
      GetTransactionByHash.request u h i =
        ⟨"getTransactionById", [.str (ToHex (h.bytes ++ bigEndianUint32 s.FullShardID))]⟩ ∧
      GetTransactionReceipt.request u h i =
        ⟨"getTransactionReceipt", [.str (ToHex (h.bytes ++ bigEndianUint32 s.FullShardID))]⟩ := by
  intro i hi
  obtain ⟨s, hs, hid⟩ := Constructed.entry hv i hi
  refine ⟨s, hs, ?_, ?_⟩
  · simp [GetTransactionByHash.request, getTransactionByID.request, getTxIDWithShard, hid]
  · simp [GetTransactionReceipt.request, getTransactionReceipt.request, getTxIDWithShard, hid]

/-- C6: on a constructed gateway and a standard hash `h` that has no cache entry,
`GetTransactionByHash` and `GetTransactionReceipt` probe the shards in ascending
index order, the probe of shard `i` being keyed by the bytes of `h` followed by
the four big-endian bytes of that shard's native id. If shard `k` is the first
whose probe is answered without error by an object, the adapted object is
returned and exactly the probes of shards `0, ..., k` have been issued. If no
shard answers with an object (each call fails, or answers nil or a non-object),
all `shardSize` probes are issued and the result is absent with no error. -/
theorem transaction_lookup_fans_out {σ : Type} (ext : Externals) (u : UnifiedShardAPI σ)
    (hv : u.Constructed) (h : Hash) (w : World σ) (hcache : u.hashMap h = none) :
    (∀ k ans, k < u.shardSize →
      probeAnswer u.client (GetTransactionByHash.request u h) w k = .ok ⟨.obj ans⟩ →
      (∀ i, i < k → ∀ a,
        probeAnswer u.client (GetTransactionByHash.request u h) w i ≠ .ok ⟨.obj a⟩) →
      GetTransactionByHash u h w =
        (.ok (some (getTransactionByID.adapt ans)),
         probeWorld u.client (GetTransactionByHash.request u h) w (k + 1))) ∧
    ((∀ i, i < u.shardSize → ∀ a,
        probeAnswer u.client (GetTransactionByHash.request u h) w i ≠ .ok ⟨.obj a⟩) →
      GetTransactionByHash u h w =
        (.ok none, probeWorld u.client (GetTransactionByHash.request u h) w u.shardSize)) ∧
    (∀ k ans, k < u.shardSize →
      probeAnswer u.client (GetTransactionReceipt.request u h) w k = .ok ⟨.obj ans⟩ →
      (∀ i, i < k → ∀ a,
        probeAnswer u.client (GetTransactionReceipt.request u h) w i ≠ .ok ⟨.obj a⟩) →
      GetTransactionReceipt ext u h w =
        (.ok (some (getTransactionReceipt.adapt ext ans)),
         probeWorld u.client (GetTransactionReceipt.request u h) w (k + 1))) ∧
    ((∀ i, i < u.shardSize → ∀ a,
        probeAnswer u.client (GetTransactionReceipt.request u h) w i ≠ .ok ⟨.obj a⟩) →
      GetTransactionReceipt ext u h w =
        (.ok none, probeWorld u.client (GetTransactionReceipt.request u h) w u.shardSize)) ∧
    (∀ n, (probeWorld u.client (GetTransactionByHash.request u h) w n).log =
      w.log ++ (List.range n).map (GetTransactionByHash.request u h)) ∧
    (∀ n, (probeWorld u.client (GetTransactionReceipt.request u h) w n).log =
      w.log ++ (List.range n).map (GetTransactionReceipt.request u h)) ∧
    (∀ i, i < u.shardSize → ∃ s, u.shards i = some s ∧
      GetTransactionByHash.request u h i =
        ⟨"getTransactionById", [.str (ToHex (h.bytes ++ bigEndianUint32 s.FullShardID))]⟩ ∧
      GetTransactionReceipt.request u h i =
        ⟨"getTransactionReceipt",
          [.str (ToHex (h.bytes ++ bigEndianUint32 s.FullShardID))]⟩) := by
  refine ⟨?_, ?_, ?_, ?_, fun n => probeWorld_log _ _ _ n, fun n => probeWorld_log _ _ _ n,
    lookup_request_eq hv h⟩
  · intro k ans hk hhit hmiss
    have hpick : pickObject getTransactionByID.adapt
        (probeAnswer u.client (GetTransactionByHash.request u h) w k) =
        some (getTransactionByID.adapt ans) := by rw [hhit]; rfl
    have hrun := tryShards_first_hit u.client (GetTransactionByHash.request u h)
      (pickObject getTransactionByID.adapt) (GetTransactionByHash.body u h)
      (GetTransactionByHash_body_eq u h) w k _ hpick u.shardSize 0 (Nat.zero_le k) (by omega)
      (fun i _ hi => (pickObject_eq_none _ _).2 (hmiss i hi))
    rw [probeWorld_zero, ← List.range_eq_range'] at hrun
    simp only [GetTransactionByHash, hcache, hrun]
  · intro hmiss
    have hrun := tryShards_all_miss u.client (GetTransactionByHash.request u h)
      (pickObject getTransactionByID.adapt) (GetTransactionByHash.body u h)
      (GetTransactionByHash_body_eq u h) w u.shardSize 0
      (fun i _ hi => (pickObject_eq_none _ _).2 (hmiss i (by omega)))
    rw [probeWorld_zero, ← List.range_eq_range', Nat.zero_add] at hrun
    simp only [GetTransactionByHash, hcache, hrun]
  · intro k ans hk hhit hmiss
    have hpick : pickObject (getTransactionReceipt.adapt ext)
        (probeAnswer u.client (GetTransactionReceipt.request u h) w k) =
        some (getTransactionReceipt.adapt ext ans) := by rw [hhit]; rfl
    have hrun := tryShards_first_hit u.client (GetTransactionReceipt.request u h)
      (pickObject (getTransactionReceipt.adapt ext)) (GetTransactionReceipt.body ext u h)
      (GetTransactionReceipt_body_eq ext u h) w k _ hpick u.shardSize 0 (Nat.zero_le k)
      (by omega) (fun i _ hi => (pickObject_eq_none _ _).2 (hmiss i hi))
    rw [probeWorld_zero, ← List.range_eq_range'] at hrun
    simp only [GetTransactionReceipt, hcache, hrun]
  · intro hmiss
    have hrun := tryShards_all_miss u.client (GetTransactionReceipt.request u h)
      (pickObject (getTransactionReceipt.adapt ext)) (GetTransactionReceipt.body ext u h)
      (GetTransactionReceipt_body_eq ext u h) w u.shardSize 0
      (fun i _ hi => (pickObject_eq_none _ _).2 (hmiss i (by omega)))
    rw [probeWorld_zero, ← List.range_eq_range', Nat.zero_add] at hrun
    simp only [GetTransactionReceipt, hcache, hrun]

/-- C6 on the four-shard deployment, whose hash map is empty: the transaction held
by shard index 2 is found after the probes of indices 0, 1, 2, and the receipt of
a hash no shard knows is absent, without error, after all four probes. -/
theorem transaction_lookup_fans_out_witness :
    GetTransactionByHash Demo.gateway Demo.nativeTxHash Demo.world =
      (.ok (some (getTransactionByID.adapt Demo.transaction)),
       ⟨(), (List.range 3).map (GetTransactionByHash.request Demo.gateway Demo.nativeTxHash)⟩) ∧
    GetTransactionReceipt Demo.externals Demo.gateway Demo.otherHash Demo.world =
      (.ok none,
       probeWorld Demo.gateway.client
         (GetTransactionReceipt.request Demo.gateway Demo.otherHash) Demo.world
         Demo.gateway.shardSize) :=
  ⟨(transaction_lookup_fans_out Demo.externals Demo.gateway Demo.gateway_constructed
      Demo.nativeTxHash Demo.world rfl).1 2 Demo.transaction (by decide) rfl
      (fun i hi a => by interval_cases i <;> exact fun h => by cases h),
   (transaction_lookup_fans_out Demo.externals Demo.gateway Demo.gateway_constructed
      Demo.otherHash Demo.world rfl).2.2.2.1
      (fun i hi a => by
        have hi' : i < 4 := hi
        interval_cases i <;> exact fun h => by cases h)⟩

/-! ## Submission -/

theorem Constructed.deriveShardID_lt {σ : Type} {u : UnifiedShardAPI σ} (hv : u.Constructed)
    (A : Address) : deriveShardID u A < u.shardSize := by
  obtain ⟨sz, cid, shards, u0, hsz, hnew, hu⟩ := hv
  have h := deriveShardID_eq_mask_aux hsz hnew A
  obtain ⟨hsize, _⟩ := NewUnifiedShardAPI_spec hsz hnew
  have hsize' : u.shardSize = u0.shardSize := by rw [hu]
  have hd : deriveShardID u A = deriveShardID u0 A := by
    simp only [deriveShardID, hsize']
  rw [hd, hsize', hsize]
  exact h

theorem Constructed.remember {σ : Type} {u : UnifiedShardAPI σ} (hv : u.Constructed)
    (key : Hash) (info : txHashInfo) : (u.remember key info).Constructed := by
  obtain ⟨sz, cid, shards, u0, hsz, hnew, hu⟩ := hv
  refine ⟨sz, cid, shards, u0, hsz, hnew, ?_⟩
  have h1 : u.shardSize = u0.shardSize := by rw [hu]
  have h2 : u.chainID = u0.chainID := by rw [hu]
  have h3 : u.shards = u0.shards := by rw [hu]
  have h4 : u.client = u0.client := by rw [hu]
  simp only [UnifiedShardAPI.remember, h1, h2, h3, h4]

/-- C7: when `SendRawTransaction` succeeds on a constructed gateway, the raw bytes
decoded to a transaction `tx` whose sender was recovered, the shard table has an
entry `s` at the sender's shard index, and afterwards the hash map binds the
standard hash of `tx` to the returned native hash and the native id of `s`, all
other bindings being as before. On the gateway so obtained,
`GetTransactionByHash` of that standard hash, in any world, issues exactly one
call, `getTransactionById` keyed by the native hash followed by the four
big-endian bytes of the stored shard id, and returns what `getTransactionByID`
makes of the answer: the adapted document, hence a non-empty result, whenever
the answer is an object. -/
theorem SendRawTransaction_then_lookup {σ : Type} (ext : Externals) (u : UnifiedShardAPI σ)
    (hv : u.Constructed) (encodedTx : List Byte) (w : World σ) (txHash : Hash)
    (u' : UnifiedShardAPI σ) (w' : World σ)
    (hsend : SendRawTransaction ext u encodedTx w = (.ok txHash, u', w')) :
    ∃ tx sender s,
      ext.rlpDecodeTx encodedTx = .ok tx ∧
      SendRawTransaction.sender ext u tx = .ok sender ∧
      u.shards (deriveShardID u sender) = some s ∧
      txHash = ext.qkcTxHash (SendRawTransaction.evmTx u tx sender) ∧
      u'.hashMap (ext.ethTxHash tx) = some { qkcHash := txHash, fullShardID := s.FullShardID } ∧
      (∀ h, h ≠ ext.ethTxHash tx → u'.hashMap h = u.hashMap h) ∧
      u'.Constructed ∧
      ∀ w2 : World σ,
        (GetTransactionByHash u' (ext.ethTxHash tx) w2).2 =
          (Call u'.client w2 ⟨"getTransactionById",
            [.str (ToHex (txHash.bytes ++ bigEndianUint32 s.FullShardID))]⟩).2 ∧
        (GetTransactionByHash u' (ext.ethTxHash tx) w2).2.log =
          w2.log ++ [⟨"getTransactionById",
            [.str (ToHex (txHash.bytes ++ bigEndianUint32 s.FullShardID))]⟩] ∧
        (GetTransactionByHash u' (ext.ethTxHash tx) w2).1 =
          (match (Call u'.client w2 ⟨"getTransactionById",
              [.str (ToHex (txHash.bytes ++ bigEndianUint32 s.FullShardID))]⟩).1 with
           | .error err => .error err
           | .ok resp => .ok (pickObject getTransactionByID.adapt (.ok resp))) ∧
        ∀ ans, (Call u'.client w2 ⟨"getTransactionById",
            [.str (ToHex (txHash.bytes ++ bigEndianUint32 s.FullShardID))]⟩).1 =
              .ok ⟨.obj ans⟩ →
          (GetTransactionByHash u' (ext.ethTxHash tx) w2).1 =
            .ok (some (getTransactionByID.adapt ans)) := by
  unfold SendRawTransaction at hsend
  split at hsend
  · simp at hsend
  · rename_i tx hdec
    split at hsend
    · simp at hsend
    · rename_i sender hsender
      dsimp only at hsend
      split at hsend
      · simp at hsend
      · rename_i rlpTxBytes henc
        split at hsend
        · simp at hsend
        · rename_i resp w'' hcall
          simp only [Prod.mk.injEq, Except.ok.injEq] at hsend
          obtain ⟨hhash, hu', _⟩ := hsend
          obtain ⟨s, hs, hid⟩ := Constructed.entry hv _ (Constructed.deriveShardID_lt hv sender)
          have hinfo : u'.hashMap (ext.ethTxHash tx) =
              some { qkcHash := txHash, fullShardID := s.FullShardID } := by
            rw [← hu', ← hhash]
            simp [UnifiedShardAPI.remember, getFullShardIDForAddress, hid]
          refine ⟨tx, sender, s, hdec, hsender, hs, hhash.symm, hinfo, ?_, ?_, ?_⟩
          · intro h hne
            rw [← hu']
            simp [UnifiedShardAPI.remember, hne]
          · rw [← hu']
            exact Constructed.remember hv _ _
          · intro w2
            have hreq : getTransactionByID.request
                (getTxIDWithShard txHash s.FullShardID) =
                ⟨"getTransactionById",
                  [.str (ToHex (txHash.bytes ++ bigEndianUint32 s.FullShardID))]⟩ := by
              simp [getTransactionByID.request, getTxIDWithShard]
            have hget : GetTransactionByHash u' (ext.ethTxHash tx) w2 =
                getTransactionByID u' (getTxIDWithShard txHash s.FullShardID) w2 := by
              simp only [GetTransactionByHash, hinfo]
            obtain ⟨hw, hr⟩ := getTransactionByID_eq u' (getTxIDWithShard txHash s.FullShardID) w2
            rw [hreq] at hw hr
            refine ⟨by rw [hget, hw], by rw [hget, hw, Call_log], by rw [hget, hr], ?_⟩
            intro ans hans
            rw [hget, hr, hans]
            rfl

/-- C7 on the four-shard deployment: submitting `rawTx` stores the native hash and
the native shard id 6 under the standard hash, and the lookup that follows issues
the single keyed probe and returns the adapted transaction. -/
theorem SendRawTransaction_then_lookup_witness :
    SendRawTransaction Demo.externals Demo.gateway Demo.rawTx Demo.world =
      (.ok Demo.nativeTxHash,
       (SendRawTransaction Demo.externals Demo.gateway Demo.rawTx Demo.world).2.1,
       (SendRawTransaction Demo.externals Demo.gateway Demo.rawTx Demo.world).2.2) ∧
    (SendRawTransaction Demo.externals Demo.gateway Demo.rawTx Demo.world).2.1.hashMap
      Demo.ethHash = some { qkcHash := Demo.nativeTxHash, fullShardID := 6 } ∧
    GetTransactionByHash
      (SendRawTransaction Demo.externals Demo.gateway Demo.rawTx Demo.world).2.1
      Demo.ethHash Demo.world =
      (.ok (some (getTransactionByID.adapt Demo.transaction)),
       ⟨(), [⟨"getTransactionById",
          [.str (ToHex (Demo.nativeTxHash.bytes ++ bigEndianUint32 6))]⟩]⟩) ∧
    ∃ (tx : EthTransaction) (s : ShardInfo),
      Demo.externals.rlpDecodeTx Demo.rawTx = .ok tx ∧
      (SendRawTransaction Demo.externals Demo.gateway Demo.rawTx Demo.world).2.1.hashMap
        (Demo.externals.ethTxHash tx) =
        some { qkcHash := Demo.nativeTxHash, fullShardID := s.FullShardID } :=
  ⟨rfl, rfl, rfl,
   let ⟨tx, _, s, h1, _, _, _, h5, _⟩ :=
     SendRawTransaction_then_lookup Demo.externals Demo.gateway Demo.gateway_constructed
       Demo.rawTx Demo.world Demo.nativeTxHash
       (SendRawTransaction Demo.externals Demo.gateway Demo.rawTx Demo.world).2.1
       (SendRawTransaction Demo.externals Demo.gateway Demo.rawTx Demo.world).2.2 rfl
   ⟨tx, s, h1, h5⟩⟩

/-- C8: for a decoded transaction `tx` whose sender `S` is recovered, the native
transaction `SendRawTransaction` builds, encodes and sends has origin shard key
`deriveFullShardKey S`; its destination shard key is `deriveFullShardKey` of the
recipient when there is one, and the origin shard key when there is none. -/
theorem SendRawTransaction_shard_keys {σ : Type} (ext : Externals) (u : UnifiedShardAPI σ)
    (tx : EthTransaction) (S : Address)
    (hS : SendRawTransaction.sender ext u tx = .ok S) :
    (SendRawTransaction.evmTx u tx S).FromFullShardKey = deriveFullShardKey u S ∧
    (∀ r, tx.To = some r →
      (SendRawTransaction.evmTx u tx S).To = some r ∧
      (SendRawTransaction.evmTx u tx S).ToFullShardKey = deriveFullShardKey u r) ∧
    (tx.To = none →
      (SendRawTransaction.evmTx u tx S).To = none ∧
      (SendRawTransaction.evmTx u tx S).ToFullShardKey =
        (SendRawTransaction.evmTx u tx S).FromFullShardKey ∧
      (SendRawTransaction.evmTx u tx S).ToFullShardKey = deriveFullShardKey u S) ∧
    ∀ (encodedTx rlpTxBytes : List Byte) (w : World σ),
      ext.rlpDecodeTx encodedTx = .ok tx →
      ext.rlpEncodeEvmTx (SendRawTransaction.evmTx u tx S) = .ok rlpTxBytes →
      (SendRawTransaction ext u encodedTx w).2.2 =
        (Call u.client w ⟨"sendRawTransaction", [.str (ToHex rlpTxBytes)]⟩).2 ∧
      (SendRawTransaction ext u encodedTx w).2.2.log =
        w.log ++ [⟨"sendRawTransaction", [.str (ToHex rlpTxBytes)]⟩] := by
  refine ⟨?_, ?_, ?_, ?_⟩
  · unfold SendRawTransaction.evmTx
    cases tx.To <;> rfl
  · intro r hr
    unfold SendRawTransaction.evmTx
    rw [hr]
    exact ⟨rfl, rfl⟩
  · intro hnone
    unfold SendRawTransaction.evmTx
    rw [hnone]
    exact ⟨rfl, rfl, rfl⟩
  · intro encodedTx rlpTxBytes w hdec henc
    have hw : (SendRawTransaction ext u encodedTx w).2.2 =
        (Call u.client w ⟨"sendRawTransaction", [.str (ToHex rlpTxBytes)]⟩).2 := by
      simp only [SendRawTransaction, hdec, hS, henc]
      generalize Call u.client w _ = p
      obtain ⟨r, w'⟩ := p
      cases r <;> rfl
    exact ⟨hw, by rw [hw, Call_log]⟩

/-- C8 on the four-shard deployment: `rawTx` (sender ending in `0x06`, recipient
ending in `0x01`) is translated with origin key 2 and destination key 1. -/
theorem SendRawTransaction_shard_keys_witness :
    Demo.externals.rlpDecodeTx Demo.rawTx =
      .ok { Nonce := 6, GasPrice := 1, Gas := 21000,
            To := some ⟨List.replicate 19 34 ++ [1], by decide⟩,
            Value := 0, Data := [], V := 27, R := 1, S := 1 } ∧
    (SendRawTransaction.evmTx Demo.gateway
      { Nonce := 6, GasPrice := 1, Gas := 21000,
        To := some ⟨List.replicate 19 34 ++ [1], by decide⟩,
        Value := 0, Data := [], V := 27, R := 1, S := 1 } Demo.sender).FromFullShardKey = 2 ∧
    (SendRawTransaction.evmTx Demo.gateway
      { Nonce := 6, GasPrice := 1, Gas := 21000,
        To := some ⟨List.replicate 19 34 ++ [1], by decide⟩,
        Value := 0, Data := [], V := 27, R := 1, S := 1 } Demo.sender).ToFullShardKey = 1 ∧
    (SendRawTransaction.evmTx Demo.gateway
      { Nonce := 6, GasPrice := 1, Gas := 21000,
        To := some ⟨List.replicate 19 34 ++ [1], by decide⟩,
        Value := 0, Data := [], V := 27, R := 1, S := 1 } Demo.sender).FromFullShardKey =
      deriveFullShardKey Demo.gateway Demo.sender :=
  ⟨rfl, by decide, by decide,
   (SendRawTransaction_shard_keys Demo.externals Demo.gateway
      { Nonce := 6, GasPrice := 1, Gas := 21000,
        To := some ⟨List.replicate 19 34 ++ [1], by decide⟩,
        Value := 0, Data := [], V := 27, R := 1, S := 1 } Demo.sender rfl).1⟩

/-! ## Gas price -/

theorem Constructed.shardSize_pos {σ : Type} {u : UnifiedShardAPI σ} (hv : u.Constructed) :
    0 < u.shardSize := by
  obtain ⟨sz, cid, shards, u0, hsz, hnew, hu⟩ := hv
  obtain ⟨h0, _⟩ := NewUnifiedShardAPI_ok hnew
  obtain ⟨hsize, _⟩ := NewUnifiedShardAPI_spec hsz hnew
  have hsize' : u.shardSize = u0.shardSize := by rw [hu]
  rw [hsize', hsize]
  exact Nat.pos_of_ne_zero h0

/-- C9: on a constructed gateway, `GasPrice` sends the single call `gasPrice` for
the native id of the entry at shard index 0; when the call is answered without
error by a string that `hexutil.DecodeBig` decodes to `v`, `GasPrice` returns 1
if `v = 0` and `v` otherwise. In no world does `GasPrice` return 0. -/
theorem GasPrice_zero_becomes_one {σ : Type} (ext : Externals) (u : UnifiedShardAPI σ)
    (hv : u.Constructed) (w : World σ) (gasPriceStr : GoString) (v : Int)
    (hcall : (Call u.client w (GasPrice.request ext u)).1 = .ok ⟨.str gasPriceStr⟩)
    (hdec : ext.DecodeBig gasPriceStr = .ok v) :
    (GasPrice ext u w).1 = .ok (if v = 0 then 1 else v) ∧
    (GasPrice ext u w).2.log = w.log ++ [GasPrice.request ext u] ∧
    (∃ s, u.shards 0 = some s ∧
      GasPrice.request ext u = ⟨"gasPrice", [.str (ext.EncodeUint64 s.FullShardID)]⟩) ∧
    ∀ w2 : World σ, (GasPrice ext u w2).1 ≠ .ok 0 := by
  refine ⟨?_, ?_, ?_, ?_⟩
  · unfold GasPrice
    revert hcall
    generalize Call u.client w (GasPrice.request ext u) = p
    obtain ⟨r, w'⟩ := p
    intro hcall
    simp only at hcall
    subst hcall
    simp only [hdec]
  · unfold GasPrice
    have hlog := Call_log u.client w (GasPrice.request ext u)
    revert hcall hlog
    generalize Call u.client w (GasPrice.request ext u) = p
    obtain ⟨r, w'⟩ := p
    intro hcall hlog
    simp only at hcall hlog
    subst hcall
    simp only [hdec]
    exact hlog
  · obtain ⟨s, hs, hid⟩ := Constructed.entry hv 0 (Constructed.shardSize_pos hv)
    exact ⟨s, hs, by simp only [GasPrice.request, hid]⟩
  · intro w2
    unfold GasPrice
    generalize Call u.client w2 (GasPrice.request ext u) = p
    obtain ⟨r, w'⟩ := p
    cases r with
    | error e => simp
    | ok resp =>
      obtain ⟨res⟩ := resp
      cases res with
      | str t =>
        simp only
        cases ext.DecodeBig t with
        | error e => simp
        | ok x =>
          simp only [ne_eq, Except.ok.injEq]
          split <;> omega
      | _ => simp

/-- C9 on the four-shard deployment, whose cluster quotes `0x0`: the gateway
answers 1. -/
theorem GasPrice_zero_becomes_one_witness :
    Demo.externals.DecodeBig [48, 120, 48] = .ok 0 ∧
    (GasPrice Demo.externals Demo.gateway Demo.world).1 = .ok 1 ∧
    (GasPrice Demo.externals Demo.gateway Demo.world).1 = .ok (if (0 : Int) = 0 then 1 else 0) :=
  ⟨rfl, rfl,
   (GasPrice_zero_becomes_one Demo.externals Demo.gateway Demo.gateway_constructed Demo.world
      [48, 120, 48] 0 rfl rfl).1⟩

/-! ## Receipt adaptation -/

theorem JObj.get_set_self (m : JObj) (k : String) (v : JSON) : (m.set k v).get k = v := by
  simp [JObj.get, JObj.set, List.find?_cons]

theorem JObj.find_delete_ne (m : JObj) (k k' : String) (h : k ≠ k') :
    (m.delete k).find? (fun kv => kv.1 == k') = m.find? (fun kv => kv.1 == k') := by
  induction m with
  | nil => rfl
  | cons a rest ih =>
    unfold JObj.delete at ih ⊢
    by_cases hak : a.1 = k
    · have hak' : (a.1 == k') = false := by
        rw [hak]
        simpa using h
      rw [List.filter_cons, List.find?_cons, hak']
      simp only [hak, beq_self_eq_true, Bool.not_true, Bool.false_eq_true, if_false]
      exact ih
    · have hak2 : (a.1 == k) = false := by simpa using hak
      rw [List.filter_cons]
      simp only [hak2, Bool.not_false, if_true, List.find?_cons]
      rw [ih]

theorem JObj.get_set_ne (m : JObj) (k k' : String) (v : JSON) (h : k ≠ k') :
    (m.set k v).get k' = m.get k' := by
  have hk : (k == k') = false := by simpa using h
  simp only [JObj.get, JObj.set, List.find?_cons, hk, JObj.find_delete_ne m k k' h]

theorem JObj.has_of_get_notNil (m : JObj) (k : String) (h : (m.get k).notNil = true) :
    m.has k = true := by
  unfold JObj.get at h
  unfold JObj.has
  cases hf : m.find? (fun kv => kv.1 == k) with
  | none => rw [hf] at h; simp [JSON.notNil] at h
  | some kv =>
    have hmem := List.mem_of_find?_eq_some hf
    have hp := List.find?_some hf
    exact List.any_eq_true.2 ⟨kv, hmem, hp⟩

theorem JObj.get_of_not_has (m : JObj) (k : String) (h : m.has k = false) :
    m.get k = .null := by
  unfold JObj.get
  have : m.find? (fun kv => kv.1 == k) = none := by
    rw [List.find?_eq_none]
    intro x hx hpx
    have : m.has k = true := List.any_eq_true.2 ⟨x, hx, hpx⟩
    rw [h] at this
    cases this
  rw [this]

theorem JSON.notNil_eq_false (v : JSON) : v.notNil = false ↔ v = .null := by
  cases v <;> simp [JSON.notNil]

theorem Bytes2Hex_zeros (n : Nat) :
    Bytes2Hex (List.replicate n 0) = List.replicate (2 * n) 48 := by
  induction n with
  | zero => rfl
  | succ n ih =>
    rw [List.replicate_succ, Bytes2Hex, ih]
    have h : 2 * (n + 1) = (2 * n + 1) + 1 := by ring
    rw [h, List.replicate_succ, List.replicate_succ]
    rfl

theorem ToHex_zeros (n : Nat) :
    ToHex (List.replicate n 0) = [48, 120] ++ List.replicate (max 1 (2 * n)) 48 := by
  unfold ToHex
  rw [Bytes2Hex_zeros]
  cases n with
  | zero => rfl
  | succ n =>
    have h1 : max 1 (2 * (n + 1)) = 2 * (n + 1) := by omega
    simp [h1]

theorem getTransactionReceipt.adapt_logsBloom (ext : Externals) (ans : JObj) :
    (getTransactionReceipt.adapt ext ans).get "logsBloom" =
      if (ans.get "logsBloom").notNil then ans.get "logsBloom"
      else .str (ToHex (List.replicate ext.BloomByteLength 0)) := by
  have hne : ("contractAddress" : String) ≠ "logsBloom" := by decide
  have hstep : ∀ m : JObj, m.get "logsBloom" = ans.get "logsBloom" →
      (if (m.get "logsBloom").notNil then m
        else m.set "logsBloom" (.str (ToHex (List.replicate ext.BloomByteLength 0)))).get
          "logsBloom" =
      if (ans.get "logsBloom").notNil then ans.get "logsBloom"
      else .str (ToHex (List.replicate ext.BloomByteLength 0)) := by
    intro m hm
    rw [hm]
    by_cases hn : (ans.get "logsBloom").notNil = true
    · simp only [hn, if_true, hm]
    · simp only [hn, Bool.false_eq_true, if_false, JObj.get_set_self]
  unfold getTransactionReceipt.adapt
  apply hstep
  split
  · split
    · exact JObj.get_set_ne _ _ _ _ hne
    · rfl
  · rfl

/-- C10: the adapted receipt of a native receipt object always binds `logsBloom` to
a non-nil value. When the native object has no `logsBloom` (or a nil one) the
value is `common.ToHex` of `BloomByteLength` zero bytes, which is `0x` followed by
`2 * BloomByteLength` zeros (a single zero when the length is 0); when the native
object has a non-nil `logsBloom`, the value is unchanged. This is the document
`getTransactionReceipt` returns whenever the cluster answers with an object. -/
theorem getTransactionReceipt_logsBloom {σ : Type} (ext : Externals) (ans : JObj) :
    (getTransactionReceipt.adapt ext ans).has "logsBloom" = true ∧
    ((getTransactionReceipt.adapt ext ans).get "logsBloom").notNil = true ∧
    (ans.has "logsBloom" = false →
      (getTransactionReceipt.adapt ext ans).get "logsBloom" =
        .str (ToHex (List.replicate ext.BloomByteLength 0))) ∧
    (ans.get "logsBloom" = .null →
      (getTransactionReceipt.adapt ext ans).get "logsBloom" =
        .str (ToHex (List.replicate ext.BloomByteLength 0))) ∧
    ((ans.get "logsBloom").notNil = true →
      (getTransactionReceipt.adapt ext ans).get "logsBloom" = ans.get "logsBloom") ∧
    ToHex (List.replicate ext.BloomByteLength 0) =
      [48, 120] ++ List.replicate (max 1 (2 * ext.BloomByteLength)) 48 ∧
    ∀ (u : UnifiedShardAPI σ) (txID : List Byte) (w : World σ),
      (Call u.client w (getTransactionReceipt.request txID)).1 = .ok ⟨.obj ans⟩ →
      (getTransactionReceipt ext u txID w).1 =
        .ok (some (getTransactionReceipt.adapt ext ans)) := by
  have hget := getTransactionReceipt.adapt_logsBloom ext ans
  have hnull : ans.get "logsBloom" = .null →
      (getTransactionReceipt.adapt ext ans).get "logsBloom" =
        .str (ToHex (List.replicate ext.BloomByteLength 0)) := by
    intro h
    rw [hget, h]
    rfl
  have hnn : ((getTransactionReceipt.adapt ext ans).get "logsBloom").notNil = true := by
    rw [hget]
    by_cases hn : (ans.get "logsBloom").notNil = true
    · simp only [hn, if_true]
    · simp only [hn, Bool.false_eq_true, if_false]
      rfl
  refine ⟨JObj.has_of_get_notNil _ _ hnn, hnn, fun h => hnull (JObj.get_of_not_has _ _ h),
    hnull, ?_, ToHex_zeros _, ?_⟩
  · intro hn
    rw [hget]
    simp only [hn, if_true]
  · intro u txID w hcall
    rw [(getTransactionReceipt_eq ext u txID w).2, hcall]
    rfl

/-- C10 on the receipt of the four-shard deployment, which has no `logsBloom`: the
adapted receipt carries `0x` followed by 512 zeros. -/
theorem getTransactionReceipt_logsBloom_witness :
    Demo.receipt.has "logsBloom" = false ∧
    (getTransactionReceipt.adapt Demo.externals Demo.receipt).get "logsBloom" =
      .str ([48, 120] ++ List.replicate 512 48) ∧
    (getTransactionReceipt.adapt Demo.externals Demo.receipt).get "logsBloom" =
      .str (ToHex (List.replicate Demo.externals.BloomByteLength 0)) :=
  ⟨rfl, rfl,
   (@getTransactionReceipt_logsBloom Unit Demo.externals Demo.receipt).2.2.1 rfl⟩

/-! ## Transaction adaptation -/

theorem JObj.get_delete_ne (m : JObj) (k k' : String) (h : k ≠ k') :
    (m.delete k).get k' = m.get k' := by
  simp only [JObj.get, JObj.find_delete_ne m k k' h]

/-- The stages of `getTransactionByID.adapt` that follow the truncation of `from`
leave the binding of `from` as it is. -/
theorem getTransactionByID.adapt_from (ans : JObj) :
    (getTransactionByID.adapt ans).get "from" =
      (match ans.get "from" with
       | .str fromStr =>
         if fromStr.length > 42 then ans.set "from" (.str (fromStr.take 42)) else ans
       | _ => ans).get "from" := by
  have h1 : ("to" : String) ≠ "from" := by decide
  have h2 : ("input" : String) ≠ "from" := by decide
  have h3 : ("blockHash" : String) ≠ "from" := by decide
  have h4 : ("blockNumber" : String) ≠ "from" := by decide
  have sTo : ∀ m : JObj,
      (match m.get "to" with
       | .str toStr =>
         if toStr.length > 42 then m.set "to" (.str (toStr.take 42))
         else if toStr.length ≤ 2 then m.delete "to"
         else m
       | _ => m).get "from" = m.get "from" := by
    intro m
    split
    · split
      · exact JObj.get_set_ne _ _ _ _ h1
      · split
        · exact JObj.get_delete_ne _ _ _ h1
        · rfl
    · rfl
  have sData : ∀ m : JObj,
      (if (m.get "data").notNil then m.set "input" (m.get "data") else m).get "from" =
        m.get "from" := by
    intro m
    split
    · exact JObj.get_set_ne _ _ _ _ h2
    · rfl
  have sBlock : ∀ m : JObj,
      (match m.get "blockId" with
       | .str blockIdStr =>
         if blockIdStr.length > 66 then m.set "blockHash" (.str (blockIdStr.take 66)) else m
       | _ => m).get "from" = m.get "from" := by
    intro m
    split
    · split
      · exact JObj.get_set_ne _ _ _ _ h3
      · rfl
    · rfl
  have sHeight : ∀ m : JObj,
      (if (m.get "blockHeight").notNil then m.set "blockNumber" (m.get "blockHeight")
        else m).get "from" = m.get "from" := by
    intro m
    split
    · exact JObj.get_set_ne _ _ _ _ h4
    · rfl
  unfold getTransactionByID.adapt
  exact (sHeight _).trans ((sBlock _).trans ((sData _).trans (sTo _)))

/-- C11: for a native transaction document whose `from` is a string, the adapted
document binds `from` to the first 42 bytes of that string when it is longer than
42, and to the string itself when its length is at most 42 (lengths and prefixes
are those of Go's `len` and slicing, the characters of the hex text the field
carries). This is the document `getTransactionByID` returns whenever the cluster
answers with that object. -/
theorem getTransactionByID_truncates_from {σ : Type} (ans : JObj) (fromStr : GoString)
    (hfrom : ans.get "from" = .str fromStr) :
    (42 < fromStr.length →
      (getTransactionByID.adapt ans).get "from" = .str (fromStr.take 42) ∧
      (fromStr.take 42).length = 42 ∧
      fromStr = fromStr.take 42 ++ fromStr.drop 42) ∧
    (fromStr.length ≤ 42 → (getTransactionByID.adapt ans).get "from" = .str fromStr) ∧
    ∀ (u : UnifiedShardAPI σ) (txID : List Byte) (w : World σ),
      (Call u.client w (getTransactionByID.request txID)).1 = .ok ⟨.obj ans⟩ →
      (getTransactionByID u txID w).1 = .ok (some (getTransactionByID.adapt ans)) := by
  have hget := getTransactionByID.adapt_from ans
  rw [hfrom] at hget
  simp only at hget
  refine ⟨?_, ?_, ?_⟩
  · intro hlen
    rw [hget, if_pos hlen, JObj.get_set_self]
    exact ⟨rfl, by rw [List.length_take]; omega, (List.take_append_drop 42 fromStr).symm⟩
  · intro hlen
    rw [hget, if_neg (by omega), hfrom]
  · intro u txID w hcall
    rw [(getTransactionByID_eq u txID w).2, hcall]
    rfl

/-- C11 on the transaction of the four-shard deployment, whose `from` is the 50
characters of a 20-byte address with a 4-byte shard suffix: the adapted `from` is
the 42 characters of the address alone; a `from` of exactly 42 characters is
returned as it is. -/
theorem getTransactionByID_truncates_from_witness :
    Demo.transaction.get "from" =
      .str (ToHex (List.replicate 19 0 ++ [6] ++ [0, 0, 0, 2])) ∧
    (ToHex (List.replicate 19 0 ++ [6] ++ [0, 0, 0, 2])).length = 50 ∧
    (getTransactionByID.adapt Demo.transaction).get "from" =
      .str (ToHex (List.replicate 19 0 ++ [6])) ∧
    (getTransactionByID.adapt Demo.transaction).get "from" =
      .str ((ToHex (List.replicate 19 0 ++ [6] ++ [0, 0, 0, 2])).take 42) ∧
    (getTransactionByID.adapt [("from", .str (ToHex (List.replicate 19 0 ++ [6])))]).get "from" =
      .str (ToHex (List.replicate 19 0 ++ [6])) :=
  ⟨rfl, by decide, rfl,
   ((@getTransactionByID_truncates_from Unit Demo.transaction
      (ToHex (List.replicate 19 0 ++ [6] ++ [0, 0, 0, 2])) rfl).1 (by decide)).1,
   (@getTransactionByID_truncates_from Unit
      [("from", .str (ToHex (List.replicate 19 0 ++ [6])))]
      (ToHex (List.replicate 19 0 ++ [6])) rfl).2.1 (by decide)⟩

end UnifiedApi
